import Mathlib

/-!
Shallow embedding of the resilient delivery pipeline of
`project-aura-events-consumer`:

* `src/database/mongoWriter.js` — circuit breaker (`canExecute`,
  `recordSuccess`, `recordFailure`), idempotent sink writer (`writeEvent`),
  retry wrapper (`writeEventWithRetry`);
* the Kafka consumer module — batch pipeline (`processBatch`),
  message validation (`parseMessage`), dead-letter routing (`sendToDLQ`),
  health derivation (`healthCheck`);
* `src/config.js` — the configuration surface, modelled as a `Config`
  record parameter.

External collaborators (the MongoDB store, the Kafka log and dead-letter
channel, the JSON decoder, the wall clock) are modelled as explicit
oracles in an `Env` record: `storeFaults n` is the fault injected into the
`n`-th store operation (`none` = the operation succeeds), `dlqFaults n`
likewise for the `n`-th dead-letter append, and `decode` is the JSON
decoder applied to a message's raw bytes.  JavaScript errors are
identified by their message string, which is how the source itself
consumes them (`error.message`), so fallible operations return
`Except String α`.
-/

set_option maxRecDepth 4000

namespace AuraConsumer

/-- Circuit breaker states, `CircuitState` in `mongoWriter.js`. -/
inductive CircuitState where
  | CLOSED
  | OPEN
  | HALF_OPEN
  deriving DecidableEq, Repr

/-- The `this.metrics` object of `MongoDBWriter`. -/
structure WriterMetrics where
  totalWrites : Nat
  successfulWrites : Nat
  failedWrites : Nat
  duplicateWrites : Nat
  batchWrites : Nat
  deriving DecidableEq, Repr

/-- A CloudEvent envelope as validated by `parseMessage`: the four
required fields.  A missing field is modelled as the empty string, which
is exactly what the JavaScript falsiness check `!event.id` rejects.
Additional payload fields pass through inside the raw bytes and are not
modelled separately. -/
structure RawEvent where
  id : String
  type : String
  source : String
  time : String
  deriving DecidableEq, Repr

/-- Mutable state of `MongoDBWriter`: circuit breaker fields plus the
MongoDB collection, modelled as the list of `(_id, document)` pairs in
insertion order. -/
structure WriterState where
  circuitState : CircuitState
  failureCount : Nat
  successCount : Nat
  lastFailureTime : Option Nat
  store : List (String × RawEvent)
  metrics : WriterMetrics
  deriving DecidableEq, Repr

/-- Result object of a successful `writeEvent` (`duplicate` is absent,
i.e. `false`, on the insert path). -/
structure WriteResult where
  success : Bool
  inserted : Bool
  eventId : String
  duplicate : Bool
  deriving DecidableEq, Repr

/-- The configuration surface from `src/config.js` consumed by the core:
circuit breaker, retry and topic settings. -/
structure Config where
  failureThreshold : Nat
  successThreshold : Nat
  timeoutMs : Nat
  initialDelay : Nat
  maxDelay : Nat
  maxAttempts : Nat
  backoffMultiplier : Nat
  topic : String
  dlqTopic : String
  deriving Repr

/-- External collaborators as oracles: store faults per store operation,
dead-letter-channel faults per append, and the JSON decoder. -/
structure Env where
  storeFaults : Nat → Option String
  dlqFaults : Nat → Option String
  decode : List Nat → Option RawEvent

/-- A Kafka message as seen by `processBatch`: offset, key, raw value
bytes and headers. -/
structure Message where
  offset : Nat
  key : List Nat
  value : List Nat
  headers : List (String × String)
  deriving DecidableEq, Repr

/-- A message appended to the dead-letter topic by `sendToDLQ`. -/
structure DLQMessage where
  key : List Nat
  value : List Nat
  headers : List (String × String)
  deriving DecidableEq, Repr

/-- The `this.metrics` object of `KafkaEventConsumer`. -/
structure ConsumerMetrics where
  messagesReceived : Nat
  messagesProcessed : Nat
  messagesFailed : Nat
  batchesProcessed : Nat
  dlqMessages : Nat
  lastProcessedTimestamp : Option Nat
  deriving DecidableEq, Repr

/-- Combined pipeline state threaded through `processBatch`: the writer,
the consumer metrics, the dead-letter topic contents, the offsets
resolved so far (in resolution order), and the oracle cursors counting
store operations and dead-letter appends performed so far. -/
structure PipeState where
  writer : WriterState
  cmetrics : ConsumerMetrics
  dlq : List DLQMessage
  committed : List Nat
  opIdx : Nat
  dlqIdx : Nat
  deriving DecidableEq, Repr

/-- Observable outcome of one `writeEventWithRetry` call: the returned
or thrown value, the final writer state, the advanced store-operation
cursor, plus two ghost observations — how many `writeEvent` attempts the
call made and which backoff delays it slept between them. -/
structure RetryOutcome where
  result : Except String WriteResult
  writer : WriterState
  opIdx : Nat
  attemptsUsed : Nat
  delays : List Nat
  deriving Repr

/-- The message of the error thrown by `writeEvent` when the circuit
breaker rejects the call. -/
def circuitOpenMsg : String :=
  "Circuit breaker is OPEN - MongoDB writes are temporarily disabled"

/-- `MongoDBWriter.canExecute`.  Takes the current time (`Date.now()`)
and returns the boolean answer together with the possibly updated state
(OPEN → HALF_OPEN on timeout expiry).  A `null` `lastFailureTime`
coerces to `0` in the JavaScript subtraction, hence `getD 0`; the
subtraction is over `Int` because JavaScript subtraction can go
negative. -/
def canExecute (cfg : Config) (now : Nat) (s : WriterState) : Bool × WriterState :=
  match s.circuitState with
  | .CLOSED => (true, s)
  | .OPEN =>
      if (cfg.timeoutMs : Int) ≤ (now : Int) - ((s.lastFailureTime.getD 0 : Nat) : Int) then
        (true, { s with circuitState := .HALF_OPEN, successCount := 0 })
      else
        (false, s)
  | .HALF_OPEN => (true, s)

/-- `MongoDBWriter.recordSuccess`. -/
def recordSuccess (cfg : Config) (s : WriterState) : WriterState :=
  let s := { s with failureCount := 0 }
  if s.circuitState = .HALF_OPEN then
    let s := { s with successCount := s.successCount + 1 }
    if cfg.successThreshold ≤ s.successCount then
      { s with circuitState := .CLOSED, successCount := 0 }
    else s
  else s

/-- `MongoDBWriter.recordFailure` at time `now`. -/
def recordFailure (cfg : Config) (now : Nat) (s : WriterState) : WriterState :=
  let s := { s with failureCount := s.failureCount + 1, lastFailureTime := some now }
  if s.circuitState = .HALF_OPEN then
    { s with circuitState := .OPEN }
  else if cfg.failureThreshold ≤ s.failureCount then
    { s with circuitState := .OPEN }
  else s

/-- `n` consecutive `recordFailure` calls, the `k`-th (0-based) at time
`T k`. -/
def recordFailures (cfg : Config) (T : Nat → Nat) : Nat → WriterState → WriterState
  | 0, s => s
  | n + 1, s => recordFailure cfg (T n) (recordFailures cfg T n s)

/-- `n` consecutive `recordSuccess` calls. -/
def recordSuccesses (cfg : Config) : Nat → WriterState → WriterState
  | 0, s => s
  | n + 1, s => recordSuccess cfg (recordSuccesses cfg n s)

/-- The `try` block of `MongoDBWriter.writeEvent`, acting on the writer
state after the circuit gate has answered `true`: count the attempt,
issue the upsert (which faults when the oracle injects a fault), and
record the outcome on the breaker. -/
def writeEventBody (cfg : Config) (env : Env) (now : Nat) (opIdx : Nat) (event : RawEvent)
    (s : WriterState) : Except String WriteResult × WriterState × Nat :=
  let s := { s with metrics := { s.metrics with totalWrites := s.metrics.totalWrites + 1 } }
  match env.storeFaults opIdx with
  | some emsg =>
      let s := { s with metrics := { s.metrics with failedWrites := s.metrics.failedWrites + 1 } }
      (.error emsg, recordFailure cfg now s, opIdx + 1)
  | none =>
      match s.store.find? (fun p => p.1 == event.id) with
      | some _ =>
          let s := { s with metrics := { s.metrics with duplicateWrites := s.metrics.duplicateWrites + 1 } }
          (.ok ⟨true, false, event.id, true⟩, recordSuccess cfg s, opIdx + 1)
      | none =>
          let s := { s with store := s.store ++ [(event.id, event)] }
          let s := { s with metrics := { s.metrics with successfulWrites := s.metrics.successfulWrites + 1 } }
          (.ok ⟨true, true, event.id, false⟩, recordSuccess cfg s, opIdx + 1)

/-- `MongoDBWriter.writeEvent`: the circuit gate followed by the `try`
block.  `opIdx` is the store-operation cursor into `env.storeFaults`; it
advances only when a store operation is actually issued. -/
def writeEvent (cfg : Config) (env : Env) (now : Nat) (opIdx : Nat) (event : RawEvent)
    (s : WriterState) : Except String WriteResult × WriterState × Nat :=
  let ce := canExecute cfg now s
  if ce.1 then
    writeEventBody cfg env now opIdx event ce.2
  else
    (.error circuitOpenMsg, ce.2, opIdx)

/-- `MongoDBWriter.writeEventWithRetry`, entered by the pipeline with
`attempt = 1`.  The recursion mirrors the source: on failure at
`attempt ≥ maxAttempts` the error is rethrown as is; otherwise the call
sleeps `min (initialDelay * backoffMultiplier ^ (attempt - 1)) maxDelay`
and retries.  `attemptsUsed` and `delays` record the observable attempt
count and backoff schedule. -/
def writeEventWithRetry (cfg : Config) (env : Env) (now : Nat) (event : RawEvent)
    (s : WriterState) (opIdx : Nat) (attempt : Nat) : RetryOutcome :=
  match writeEvent cfg env now opIdx event s with
  | (.ok r, s', opIdx') => ⟨.ok r, s', opIdx', 1, []⟩
  | (.error e, s', opIdx') =>
      if h : cfg.maxAttempts ≤ attempt then
        ⟨.error e, s', opIdx', 1, []⟩
      else
        let delay := min (cfg.initialDelay * cfg.backoffMultiplier ^ (attempt - 1)) cfg.maxDelay
        let rest := writeEventWithRetry cfg env now event s' opIdx' (attempt + 1)
        ⟨rest.result, rest.writer, rest.opIdx, rest.attemptsUsed + 1, delay :: rest.delays⟩
  termination_by cfg.maxAttempts - attempt
  decreasing_by omega

/-- The validity predicate applied by `parseMessage`: all four required
CloudEvent fields present and non-empty (JavaScript falsiness of the
empty string). -/
def isValidEvent (e : RawEvent) : Bool :=
  !(e.id == "") && !(e.type == "") && !(e.source == "") && !(e.time == "")

/-- `KafkaEventConsumer.parseMessage`: decode the raw bytes, then reject
any event with a missing/empty required field. -/
def parseMessage (env : Env) (m : Message) : Option RawEvent :=
  match env.decode m.value with
  | none => none
  | some e => if isValidEvent e then some e else none

/-- JavaScript object-spread update of one key: overwrite in place if
the key is present, append otherwise. -/
def setKey (hs : List (String × String)) (k v : String) : List (String × String) :=
  if hs.any (fun p => p.1 == k) then
    hs.map (fun p => if p.1 == k then (k, v) else p)
  else
    hs ++ [(k, v)]

/-- Lookup of a header value by key. -/
def lookupHeader (hs : List (String × String)) (k : String) : Option String :=
  (hs.find? (fun p => p.1 == k)).map (fun p => p.2)

/-- The headers `sendToDLQ` attaches: the original headers spread first,
then `x-error-reason`, `x-failed-timestamp` and `x-original-topic`. -/
def dlqHeaders (cfg : Config) (now : Nat) (hs : List (String × String)) (reason : String) :
    List (String × String) :=
  setKey (setKey (setKey hs "x-error-reason" reason) "x-failed-timestamp" (toString now))
    "x-original-topic" cfg.topic

/-- `KafkaEventConsumer.sendToDLQ`: increment `metrics.dlqMessages`
first, build the dead-letter message from the original key, the original
value bytes and the merged headers, then attempt the append; a failing
append rethrows the producer's error after the counter increment. -/
def sendToDLQ (cfg : Config) (env : Env) (now : Nat) (m : Message) (errorReason : String)
    (st : PipeState) : Except String Unit × PipeState :=
  let st := { st with cmetrics := { st.cmetrics with dlqMessages := st.cmetrics.dlqMessages + 1 } }
  let dlqMsg : DLQMessage := ⟨m.key, m.value, dlqHeaders cfg now m.headers errorReason⟩
  match env.dlqFaults st.dlqIdx with
  | some e => (.error e, { st with dlqIdx := st.dlqIdx + 1 })
  | none => (.ok (), { st with dlq := st.dlq ++ [dlqMsg], dlqIdx := st.dlqIdx + 1 })

/-- The `catch` block of the per-message loop in `processBatch`:
increment `messagesFailed`, send the failed message to the dead-letter
topic with the error's message as reason; commit the offset when that
append succeeds, propagate the append's error otherwise. -/
def handleFailure (cfg : Config) (env : Env) (now : Nat) (m : Message) (emsg : String)
    (st : PipeState) : Except String Unit × PipeState :=
  let st := { st with cmetrics := { st.cmetrics with messagesFailed := st.cmetrics.messagesFailed + 1 } }
  match sendToDLQ cfg env now m emsg st with
  | (.ok _, st) => (.ok (), { st with committed := st.committed ++ [m.offset] })
  | (.error e, st) => (.error e, st)

/-- One iteration of the per-message loop of
`KafkaEventConsumer.processBatch` (the `try`/`catch` body): parse, route
invalid messages to the dead-letter topic with reason
`"Invalid message format"`, write valid ones through the retry wrapper,
resolve the offset on every durably handled outcome, and fall into the
`catch` block on a thrown error. -/
def processStep (cfg : Config) (env : Env) (now : Nat) (m : Message) (st : PipeState) :
    Except String Unit × PipeState :=
  match parseMessage env m with
  | none =>
      match sendToDLQ cfg env now m "Invalid message format" st with
      | (.ok _, st) => (.ok (), { st with committed := st.committed ++ [m.offset] })
      | (.error e, st) => handleFailure cfg env now m e st
  | some event =>
      let ro := writeEventWithRetry cfg env now event st.writer st.opIdx 1
      let st' := { st with writer := ro.writer, opIdx := ro.opIdx }
      match ro.result with
      | .ok r =>
          let st' :=
            if r.success then
              { st' with cmetrics := { st'.cmetrics with
                  messagesProcessed := st'.cmetrics.messagesProcessed + 1,
                  lastProcessedTimestamp := some now } }
            else st'
          (.ok (), { st' with committed := st'.committed ++ [m.offset] })
      | .error e => handleFailure cfg env now m e st'

/-- The `for` loop of `processBatch`.  `running j` is the value the
shutdown check `isRunning() && !isShuttingDown` would report at the
`j`-th remaining iteration; a `false` check breaks out of the loop, a
thrown error propagates out of `processBatch`. -/
def processLoop (cfg : Config) (env : Env) (now : Nat) :
    List Message → (Nat → Bool) → PipeState → Except String Unit × PipeState
  | [], _, st => (.ok (), st)
  | m :: rest, running, st =>
      if running 0 then
        match processStep cfg env now m st with
        | (.ok _, st') => processLoop cfg env now rest (fun j => running (j + 1)) st'
        | (.error e, st') => (.error e, st')
      else
        (.ok (), st)

/-- `KafkaEventConsumer.processBatch`: count the received messages, run
the per-message loop, and count the batch when the loop finishes without
throwing. -/
def processBatch (cfg : Config) (env : Env) (now : Nat) (running : Nat → Bool)
    (msgs : List Message) (st : PipeState) : Except String Unit × PipeState :=
  let st := { st with cmetrics := { st.cmetrics with
      messagesReceived := st.cmetrics.messagesReceived + msgs.length } }
  match processLoop cfg env now msgs running st with
  | (.ok _, st) =>
      (.ok (), { st with cmetrics := { st.cmetrics with
          batchesProcessed := st.cmetrics.batchesProcessed + 1 } })
  | (.error e, st) => (.error e, st)

/-- The kafkajs `eachBatch` driver as `KafkaEventConsumer.start`
configures it: `consumer.run` is called with
`eachBatchAutoResolve: true` (and `autoCommit` on), so whenever the
`eachBatch` handler — `processBatch` — returns without throwing, the
framework additionally auto-resolves the offset of the batch's *last*
message (`batch.lastOffset()`), whether or not the handler resolved it;
when the handler throws, no auto-resolution happens. -/
def runBatch (cfg : Config) (env : Env) (now : Nat) (running : Nat → Bool)
    (msgs : List Message) (st : PipeState) : Except String Unit × PipeState :=
  match processBatch cfg env now running msgs st with
  | (.ok _, st) =>
      (.ok (),
        match msgs.getLast? with
        | some m => { st with committed := st.committed ++ [m.offset] }
        | none => st)
  | (.error e, st) => (.error e, st)

/-- A message counts as durably handled in a pipeline state when its
decoded event is present in the sink store, or a dead-letter message
carrying its original value bytes has been appended. -/
def handledBy (env : Env) (st : PipeState) (m : Message) : Bool :=
  (match parseMessage env m with
   | some e => st.writer.store.any (fun p => p.1 == e.id)
   | none => false) ||
  st.dlq.any (fun d => d.value == m.value)

/-- Health status values reported by `healthCheck`. -/
inductive HealthStatus where
  | healthy
  | degraded
  | unhealthy
  deriving DecidableEq, Repr

/-- `KafkaEventConsumer.healthCheck` as a function of the observable
inputs: the current time, `this.isRunning`, and
`this.metrics.lastProcessedTimestamp`.  A `null` timestamp makes
`timeSinceLastMessage` `null`, which is falsy, so the degraded branch is
skipped; otherwise the branch fires exactly when the elapsed time
exceeds the hard-coded 300000 ms (`dt = 0` is falsy but also fails
`dt > 300000`, so truncated `Nat` subtraction is faithful). -/
def healthCheck (now : Nat) (isRunning : Bool) (lastProcessed : Option Nat) : HealthStatus :=
  if !isRunning then .unhealthy
  else
    match lastProcessed with
    | none => .healthy
    | some t => if 300000 < now - t then .degraded else .healthy

/-- Modelled from the spec: the health derivation as §6 of the spec
words it — unhealthy if the worker is not running, otherwise degraded
iff no record has been successfully processed within the 5-minute
staleness window, healthy otherwise.  Used only to compare against the
source-derived `healthCheck`. -/
def specHealth (now : Nat) (isRunning : Bool) (lastProcessed : Option Nat) : HealthStatus :=
  if !isRunning then .unhealthy
  else
    match lastProcessed with
    | none => .degraded
    | some t => if now - t ≤ 300000 then .healthy else .degraded

/-! ### Concrete fixtures (default configuration values from `src/config.js`) -/

/-- The default configuration from `src/config.js`. -/
def cfgDef : Config := ⟨5, 2, 30000, 1000, 30000, 3, 2, "events-v1", "events-v1-dlq"⟩

/-- All-zero writer metrics, as at construction. -/
def emptyWM : WriterMetrics := ⟨0, 0, 0, 0, 0⟩

/-- Writer state at construction: CLOSED circuit, zero counters, empty store. -/
def freshWriter : WriterState := ⟨.CLOSED, 0, 0, none, [], emptyWM⟩

/-- A valid CloudEvent. -/
def evA : RawEvent := ⟨"a", "created", "svc", "2026-01-01T00:00:00Z"⟩

/-- A concrete decoder: bytes `[1]` decode to `evA`, bytes `[2]` to an
event with an empty `id`, anything else is unparseable. -/
def decode0 : List Nat → Option RawEvent :=
  fun v =>
    if v = [1] then some evA
    else if v = [2] then some ⟨"", "created", "svc", "2026-01-01T00:00:00Z"⟩
    else none

/-- Environment with a healthy store and dead-letter channel. -/
def envOk : Env := ⟨fun _ => none, fun _ => none, decode0⟩

/-- Environment whose dead-letter channel rejects every append. -/
def envDlqDown : Env := ⟨fun _ => none, fun _ => some "DLQ down", decode0⟩

/-- Consumer metrics at construction. -/
def freshCM : ConsumerMetrics := ⟨0, 0, 0, 0, 0, none⟩

/-- Pipeline state at construction. -/
def freshPipe : PipeState := ⟨freshWriter, freshCM, [], [], 0, 0⟩

/-- A message whose bytes decode to the valid event `evA`. -/
def msgValid : Message := ⟨7, [9], [1], [("h", "v")]⟩

/-- A message whose bytes decode to an event with an empty `id`. -/
def msgInvalid : Message := ⟨8, [9], [2], []⟩

/-! ### C7 — recordFailure in CLOSED -/

/-- C7 counterexample: with `failureThreshold = 1`, one `recordFailure`
from the fresh CLOSED state transitions the breaker to OPEN but leaves
the failure counter at 1 — the source never resets the counter on the
CLOSED → OPEN transition, contradicting the claim that the counter is
reset when it reaches the threshold. -/
theorem recordFailure_counter_not_reset :
    (recordFailure ⟨1, 2, 30000, 1000, 30000, 3, 2, "events-v1", "events-v1-dlq"⟩
        5 freshWriter).circuitState = .OPEN ∧
    (recordFailure ⟨1, 2, 30000, 1000, 30000, 3, 2, "events-v1", "events-v1-dlq"⟩
        5 freshWriter).failureCount = 1 ∧ (1 : Nat) ≠ 0 := by
  refine ⟨rfl, rfl, by decide⟩

/-- C7 (amended): in the CLOSED state every `recordFailure` call
increments the failure counter and records the failure time; when the
incremented counter has reached `failureThreshold` the breaker
transitions to OPEN, otherwise it stays CLOSED — and in either case the
failure counter keeps its incremented value (it is reset only by
`recordSuccess`). -/
theorem recordFailure_in_closed (cfg : Config) (now : Nat) (s : WriterState)
    (h : s.circuitState = .CLOSED) :
    (recordFailure cfg now s).failureCount = s.failureCount + 1 ∧
    (recordFailure cfg now s).lastFailureTime = some now ∧
    (cfg.failureThreshold ≤ s.failureCount + 1 →
      (recordFailure cfg now s).circuitState = .OPEN) ∧
    (s.failureCount + 1 < cfg.failureThreshold →
      (recordFailure cfg now s).circuitState = .CLOSED) := by
  simp only [recordFailure, h]
  split
  · simp_all
  · split <;> rename_i hle
    · exact ⟨rfl, rfl, fun _ => rfl, fun hlt => absurd hle (by omega)⟩
    · exact ⟨rfl, rfl, fun hge => absurd hge (by omega), fun _ => rfl⟩

/-- C7 witness: the amended statement evaluated on the fresh writer
state with the default configuration. -/
theorem recordFailure_in_closed_witness :
    (recordFailure cfgDef 5 freshWriter).failureCount = freshWriter.failureCount + 1 ∧
    (recordFailure cfgDef 5 freshWriter).lastFailureTime = some 5 ∧
    (cfgDef.failureThreshold ≤ freshWriter.failureCount + 1 →
      (recordFailure cfgDef 5 freshWriter).circuitState = .OPEN) ∧
    (freshWriter.failureCount + 1 < cfgDef.failureThreshold →
      (recordFailure cfgDef 5 freshWriter).circuitState = .CLOSED) :=
  recordFailure_in_closed cfgDef 5 freshWriter rfl

/-! ### C6 — health derivation -/

/-- C6 counterexample: a running consumer that has never processed a
record reports `healthy`, while the spec's derivation ("degraded if no
record has been successfully processed within the staleness window")
demands `degraded` — the source skips the staleness branch entirely when
`lastProcessedTimestamp` is `null`. -/
theorem healthCheck_never_processed_counterexample :
    healthCheck 0 true none = .healthy ∧
    specHealth 0 true none = .degraded ∧
    HealthStatus.healthy ≠ HealthStatus.degraded := by
  refine ⟨rfl, rfl, by decide⟩

/-- C6 (amended): the health check reports `unhealthy` iff the worker is
not running; otherwise it reports `degraded` iff some record has been
processed before and more than the hard-coded 300000 ms staleness window
has elapsed since the last one; otherwise (including the case where no
record has ever been processed) it reports `healthy`. -/
theorem healthCheck_characterization (now : Nat) (r : Bool) (last : Option Nat) :
    (healthCheck now r last = .unhealthy ↔ r = false) ∧
    (healthCheck now r last = .degraded ↔
      r = true ∧ ∃ t, last = some t ∧ 300000 < now - t) ∧
    (healthCheck now r last = .healthy ↔
      r = true ∧ ∀ t, last = some t → now - t ≤ 300000) := by
  cases r <;> cases last <;> simp only [healthCheck, Bool.not_true, Bool.not_false,
    if_true, if_false] <;> try simp
  rename_i t
  split <;> rename_i ht <;> simp_all <;> omega

/-! ### C10 — dead-letter counter discipline -/

/-- C10: every `sendToDLQ` call increments the dead-letter counter by
exactly one before the append is attempted; when the append fails the
producer's error propagates to the caller, nothing is appended, and the
counter increment is not rolled back. -/
theorem sendToDLQ_increments_before_append (cfg : Config) (env : Env) (now : Nat)
    (m : Message) (reason : String) (st : PipeState) :
    (sendToDLQ cfg env now m reason st).2.cmetrics.dlqMessages =
      st.cmetrics.dlqMessages + 1 ∧
    (∀ e, env.dlqFaults st.dlqIdx = some e →
      (sendToDLQ cfg env now m reason st).1 = .error e ∧
      (sendToDLQ cfg env now m reason st).2.dlq = st.dlq) := by
  unfold sendToDLQ
  cases h : env.dlqFaults st.dlqIdx <;> simp [h]

/-- C10 witness: a failing append on the fresh pipeline state leaves the
counter incremented, the error propagated and the topic untouched. -/
theorem sendToDLQ_increments_before_append_witness :
    (sendToDLQ cfgDef envDlqDown 0 msgValid "r" freshPipe).2.cmetrics.dlqMessages =
      freshPipe.cmetrics.dlqMessages + 1 ∧
    ((sendToDLQ cfgDef envDlqDown 0 msgValid "r" freshPipe).1 = .error "DLQ down" ∧
      (sendToDLQ cfgDef envDlqDown 0 msgValid "r" freshPipe).2.dlq = freshPipe.dlq) :=
  ⟨(sendToDLQ_increments_before_append cfgDef envDlqDown 0 msgValid "r" freshPipe).1,
   (sendToDLQ_increments_before_append cfgDef envDlqDown 0 msgValid "r" freshPipe).2
     "DLQ down" rfl⟩

/-! ### Header-merge lemmas for C9 -/

/-- The `find?` of the in-place-overwrite branch of `setKey`. -/
theorem find?_setKey_map (hs : List (String × String)) (k v : String)
    (hany : hs.any (fun p => p.1 == k) = true) :
    (hs.map (fun p => if p.1 == k then (k, v) else p)).find? (fun p => p.1 == k) =
      some (k, v) := by
  induction hs with
  | nil => simp at hany
  | cons p t ih =>
      cases hp : (p.1 == k) with
      | true =>
          rw [List.map_cons, if_pos hp, List.find?_cons_of_pos _ (by simp)]
      | false =>
          simp only [List.any_cons, hp, Bool.false_or] at hany
          rw [List.map_cons, if_neg (by simp [hp]),
            List.find?_cons_of_neg _ (by simp [hp])]
          exact ih hany

/-- The in-place-overwrite branch of `setKey` is invisible to lookups of
other keys. -/
theorem find?_setKey_map_other (hs : List (String × String)) (k v k' : String)
    (h : k' ≠ k) :
    (hs.map (fun p => if p.1 == k then (k, v) else p)).find? (fun p => p.1 == k') =
      hs.find? (fun p => p.1 == k') := by
  induction hs with
  | nil => rfl
  | cons p t ih =>
      cases hp : (p.1 == k) with
      | true =>
          have hpk : p.1 = k := by simpa using hp
          have hp' : (p.1 == k') = false := by
            simp only [beq_eq_false_iff_ne, ne_eq, hpk]
            exact fun he => h he.symm
          have hkk' : (k == k') = false := by
            simp only [beq_eq_false_iff_ne, ne_eq]
            exact fun he => h he.symm
          rw [List.map_cons, if_pos hp, List.find?_cons_of_neg _ (by simp [hkk']),
            List.find?_cons_of_neg _ (by simp [hp']), ih]
      | false =>
          cases hq : (p.1 == k') with
          | true =>
              rw [List.map_cons, if_neg (by simp [hp]),
                List.find?_cons_of_pos _ (by simp [hq]),
                List.find?_cons_of_pos _ (by simp [hq])]
          | false =>
              rw [List.map_cons, if_neg (by simp [hp]),
                List.find?_cons_of_neg _ (by simp [hq]),
                List.find?_cons_of_neg _ (by simp [hq]), ih]

/-- `setKey` makes the updated key map to the new value. -/
theorem lookupHeader_setKey_self (hs : List (String × String)) (k v : String) :
    lookupHeader (setKey hs k v) k = some v := by
  unfold setKey lookupHeader
  split <;> rename_i hany
  · rw [find?_setKey_map hs k v hany]
    rfl
  · rw [List.find?_append]
    have hnone : hs.find? (fun p => p.1 == k) = none := by
      rw [List.find?_eq_none]
      intro x hx hpx
      exact hany (List.any_eq_true.mpr ⟨x, hx, hpx⟩)
    rw [hnone, List.find?_cons_of_pos _ (by simp)]
    rfl

/-- `setKey` leaves every other key's lookup unchanged. -/
theorem lookupHeader_setKey_other (hs : List (String × String)) (k v k' : String)
    (h : k' ≠ k) :
    lookupHeader (setKey hs k v) k' = lookupHeader hs k' := by
  unfold setKey lookupHeader
  have hkk' : (k == k') = false := by
    simp only [beq_eq_false_iff_ne, ne_eq]
    exact fun he => h he.symm
  split
  · rw [find?_setKey_map_other hs k v k' h]
  · rw [List.find?_append]
    cases hf : hs.find? (fun p => p.1 == k') with
    | some p => rfl
    | none =>
        rw [List.find?_cons_of_neg _ (by simp [hkk'])]
        rfl

/-! ### C9 — dead-letter payload preservation -/

/-- C9: a successful dead-letter send appends a message whose value is
byte-for-byte the record's original encoded bytes and whose key is the
original key; its headers are the original headers merged with the
`x-error-reason`, `x-failed-timestamp` and `x-original-topic` metadata
headers — those three look up to the failure metadata, every other key
looks up exactly as in the original headers, and the payload itself is
untouched. -/
theorem sendToDLQ_preserves_payload (cfg : Config) (env : Env) (now : Nat) (m : Message)
    (reason : String) (st : PipeState)
    (h : env.dlqFaults st.dlqIdx = none) :
    (sendToDLQ cfg env now m reason st).2.dlq =
      st.dlq ++ [⟨m.key, m.value, dlqHeaders cfg now m.headers reason⟩] ∧
    lookupHeader (dlqHeaders cfg now m.headers reason) "x-error-reason" = some reason ∧
    lookupHeader (dlqHeaders cfg now m.headers reason) "x-failed-timestamp" =
      some (toString now) ∧
    lookupHeader (dlqHeaders cfg now m.headers reason) "x-original-topic" =
      some cfg.topic ∧
    (∀ k, k ≠ "x-error-reason" → k ≠ "x-failed-timestamp" → k ≠ "x-original-topic" →
      lookupHeader (dlqHeaders cfg now m.headers reason) k = lookupHeader m.headers k) := by
  refine ⟨?_, ?_, ?_, ?_, ?_⟩
  · simp [sendToDLQ, h]
  · unfold dlqHeaders
    rw [lookupHeader_setKey_other _ _ _ _ (by decide),
      lookupHeader_setKey_other _ _ _ _ (by decide),
      lookupHeader_setKey_self]
  · unfold dlqHeaders
    rw [lookupHeader_setKey_other _ _ _ _ (by decide), lookupHeader_setKey_self]
  · unfold dlqHeaders
    rw [lookupHeader_setKey_self]
  · intro k h1 h2 h3
    unfold dlqHeaders
    rw [lookupHeader_setKey_other _ _ _ _ h3, lookupHeader_setKey_other _ _ _ _ h2,
      lookupHeader_setKey_other _ _ _ _ h1]

/-- C9 witness: the statement evaluated on a concrete message and the
fresh pipeline state, with the other-keys clause instantiated at the
message's own header key. -/
theorem sendToDLQ_preserves_payload_witness :
    (sendToDLQ cfgDef envOk 0 msgValid "r" freshPipe).2.dlq =
      freshPipe.dlq ++ [⟨msgValid.key, msgValid.value,
        dlqHeaders cfgDef 0 msgValid.headers "r"⟩] ∧
    lookupHeader (dlqHeaders cfgDef 0 msgValid.headers "r") "x-error-reason" = some "r" ∧
    lookupHeader (dlqHeaders cfgDef 0 msgValid.headers "r") "x-failed-timestamp" =
      some (toString 0) ∧
    lookupHeader (dlqHeaders cfgDef 0 msgValid.headers "r") "x-original-topic" =
      some cfgDef.topic ∧
    lookupHeader (dlqHeaders cfgDef 0 msgValid.headers "r") "h" =
      lookupHeader msgValid.headers "h" := by
  have hm := sendToDLQ_preserves_payload cfgDef envOk 0 msgValid "r" freshPipe rfl
  exact ⟨hm.1, hm.2.1, hm.2.2.1, hm.2.2.2.1,
    hm.2.2.2.2 "h" (by decide) (by decide) (by decide)⟩

/-! ### Circuit breaker helper lemmas -/

/-- A failure below the threshold in CLOSED only bumps the counter and
the failure time. -/
theorem recordFailure_stays_closed {cfg : Config} {now : Nat} {s : WriterState}
    (h : s.circuitState = .CLOSED) (hlt : s.failureCount + 1 < cfg.failureThreshold) :
    recordFailure cfg now s =
      { s with failureCount := s.failureCount + 1, lastFailureTime := some now } := by
  simp only [recordFailure, h]
  split
  · simp_all
  · rw [if_neg (by omega)]

/-- A failure reaching the threshold in CLOSED opens the circuit,
keeping the incremented counter. -/
theorem recordFailure_opens {cfg : Config} {now : Nat} {s : WriterState}
    (h : s.circuitState = .CLOSED) (hge : cfg.failureThreshold ≤ s.failureCount + 1) :
    recordFailure cfg now s =
      { s with circuitState := .OPEN, failureCount := s.failureCount + 1,
               lastFailureTime := some now } := by
  simp only [recordFailure, h]
  split
  · simp_all
  · rfl

/-- Consecutive failures from CLOSED, while strictly below the
threshold, keep the circuit CLOSED and accumulate the counter. -/
theorem recordFailures_stay_closed (cfg : Config) (T : Nat → Nat) :
    ∀ n (s : WriterState), s.circuitState = .CLOSED →
      s.failureCount + n < cfg.failureThreshold →
      (recordFailures cfg T n s).circuitState = .CLOSED ∧
      (recordFailures cfg T n s).failureCount = s.failureCount + n := by
  intro n
  induction n with
  | zero => intro s h hlt; exact ⟨h, rfl⟩
  | succ n ih =>
      intro s h hlt
      have hmid := ih s h (by omega)
      rw [recordFailures, recordFailure_stays_closed hmid.1 (by omega)]
      exact ⟨hmid.1, by simp [hmid.2, Nat.add_assoc]⟩

/-- A success in HALF_OPEN strictly below the success threshold bumps
the success counter and clears the failure counter. -/
theorem recordSuccess_stays_halfopen {cfg : Config} {s : WriterState}
    (h : s.circuitState = .HALF_OPEN) (hlt : s.successCount + 1 < cfg.successThreshold) :
    recordSuccess cfg s =
      { s with failureCount := 0, successCount := s.successCount + 1 } := by
  simp only [recordSuccess, h, if_pos]
  rw [if_neg (by omega)]

/-- A success reaching the success threshold in HALF_OPEN closes the
circuit and clears both counters. -/
theorem recordSuccess_closes {cfg : Config} {s : WriterState}
    (h : s.circuitState = .HALF_OPEN) (hge : cfg.successThreshold ≤ s.successCount + 1) :
    recordSuccess cfg s =
      { s with circuitState := .CLOSED, failureCount := 0, successCount := 0 } := by
  simp only [recordSuccess, h, if_pos]
  rw [if_pos (by omega)]

/-- Consecutive successes from HALF_OPEN, strictly below the success
threshold, keep the circuit HALF_OPEN and accumulate the counter. -/
theorem recordSuccesses_stay_halfopen (cfg : Config) :
    ∀ n (s : WriterState), s.circuitState = .HALF_OPEN →
      s.successCount + n < cfg.successThreshold →
      (recordSuccesses cfg n s).circuitState = .HALF_OPEN ∧
      (recordSuccesses cfg n s).successCount = s.successCount + n := by
  intro n
  induction n with
  | zero => intro s h hlt; exact ⟨h, rfl⟩
  | succ n ih =>
      intro s h hlt
      have hmid := ih s h (by omega)
      rw [recordSuccesses, recordSuccess_stays_halfopen hmid.1 (by omega)]
      exact ⟨hmid.1, by simp [hmid.2, Nat.add_assoc]⟩

/-! ### C2 — circuit breaker state machine -/

/-- C2: the full breaker lifecycle.  From a CLOSED state with a zero
failure counter, `failureThreshold` consecutive `recordFailure` calls
leave the breaker OPEN with the last call's timestamp recorded; in OPEN,
`canExecute` returns `false` without side effects while less than
`openTimeout` has elapsed since the last failure, and the first call at
or after the timeout transitions to HALF_OPEN (success counter reset)
and returns `true`; from HALF_OPEN with a zero success counter,
`successThreshold` consecutive `recordSuccess` calls close the breaker;
and a single `recordFailure` in HALF_OPEN reopens it. -/
theorem circuitBreaker_state_machine (cfg : Config)
    (hf : 1 ≤ cfg.failureThreshold) (hs : 1 ≤ cfg.successThreshold) :
    (∀ (T : Nat → Nat) (s : WriterState), s.circuitState = .CLOSED → s.failureCount = 0 →
      (recordFailures cfg T cfg.failureThreshold s).circuitState = .OPEN ∧
      (recordFailures cfg T cfg.failureThreshold s).lastFailureTime =
        some (T (cfg.failureThreshold - 1))) ∧
    (∀ (s : WriterState) (t now : Nat), s.circuitState = .OPEN →
      s.lastFailureTime = some t → (now : Int) - (t : Int) < (cfg.timeoutMs : Int) →
      canExecute cfg now s = (false, s)) ∧
    (∀ (s : WriterState) (t now : Nat), s.circuitState = .OPEN →
      s.lastFailureTime = some t → (cfg.timeoutMs : Int) ≤ (now : Int) - (t : Int) →
      canExecute cfg now s =
        (true, { s with circuitState := .HALF_OPEN, successCount := 0 })) ∧
    (∀ s : WriterState, s.circuitState = .HALF_OPEN → s.successCount = 0 →
      (recordSuccesses cfg cfg.successThreshold s).circuitState = .CLOSED) ∧
    (∀ (s : WriterState) (now : Nat), s.circuitState = .HALF_OPEN →
      (recordFailure cfg now s).circuitState = .OPEN) := by
  refine ⟨?_, ?_, ?_, ?_, ?_⟩
  · intro T s h h0
    obtain ⟨m, hm⟩ : ∃ m, cfg.failureThreshold = m + 1 :=
      ⟨cfg.failureThreshold - 1, by omega⟩
    have hmid := recordFailures_stay_closed cfg T m s h (by omega)
    rw [hm, recordFailures, recordFailure_opens hmid.1 (by omega)]
    simp [hm]
  · intro s t now h hlf hlt
    simp only [canExecute, h, hlf]
    rw [if_neg (by simp only [Option.getD_some]; omega)]
  · intro s t now h hlf hge
    simp only [canExecute, h, hlf]
    rw [if_pos (by simp only [Option.getD_some]; omega)]
  · intro s h h0
    obtain ⟨m, hm⟩ : ∃ m, cfg.successThreshold = m + 1 :=
      ⟨cfg.successThreshold - 1, by omega⟩
    have hmid := recordSuccesses_stay_halfopen cfg m s h (by omega)
    rw [hm, recordSuccesses, recordSuccess_closes hmid.1 (by omega)]
  · intro s now h
    simp [recordFailure, h]

/-- An OPEN writer state whose last failure happened at time 100. -/
def openW : WriterState := ⟨.OPEN, 2, 0, some 100, [], emptyWM⟩

/-- A HALF_OPEN writer state with a zero success counter. -/
def halfW : WriterState := ⟨.HALF_OPEN, 0, 0, some 100, [], emptyWM⟩

/-- A small configuration exercising the breaker thresholds. -/
def cfgW : Config := ⟨2, 2, 10, 1000, 30000, 3, 2, "events-v1", "events-v1-dlq"⟩

/-- C2 witness: every lifecycle clause evaluated on concrete states with
`failureThreshold = successThreshold = 2` and `openTimeout = 10`. -/
theorem circuitBreaker_state_machine_witness :
    ((recordFailures cfgW (fun k => k) 2 freshWriter).circuitState = .OPEN ∧
      (recordFailures cfgW (fun k => k) 2 freshWriter).lastFailureTime = some 1) ∧
    canExecute cfgW 105 openW = (false, openW) ∧
    canExecute cfgW 110 openW =
      (true, { openW with circuitState := .HALF_OPEN, successCount := 0 }) ∧
    (recordSuccesses cfgW 2 halfW).circuitState = .CLOSED ∧
    (recordFailure cfgW 200 halfW).circuitState = .OPEN := by
  have hm := circuitBreaker_state_machine cfgW (by decide) (by decide)
  exact ⟨hm.1 (fun k => k) freshWriter rfl rfl,
    hm.2.1 openW 100 105 rfl rfl (by decide),
    hm.2.2.1 openW 100 110 rfl rfl (by decide),
    hm.2.2.2.1 halfW rfl rfl,
    hm.2.2.2.2 halfW 200 rfl⟩

/-! ### writeEvent characterization lemmas -/

/-- `recordSuccess` outside HALF_OPEN only clears the failure counter. -/
theorem recordSuccess_in_closed {cfg : Config} {s : WriterState}
    (h : s.circuitState = .CLOSED) :
    recordSuccess cfg s = { s with failureCount := 0 } := by
  simp [recordSuccess, h]

/-- In CLOSED, `canExecute` answers `true` without side effects. -/
theorem canExecute_closed {cfg : Config} {now : Nat} {s : WriterState}
    (h : s.circuitState = .CLOSED) :
    canExecute cfg now s = (true, s) := by
  simp [canExecute, h]

/-- A `false` answer from `canExecute` leaves the state untouched. -/
theorem canExecute_false_eq {cfg : Config} {now : Nat} {s : WriterState}
    (h : (canExecute cfg now s).1 = false) :
    canExecute cfg now s = (false, s) := by
  cases hc : s.circuitState with
  | CLOSED => rw [canExecute_closed hc] at h; simp at h
  | HALF_OPEN => simp [canExecute, hc] at h
  | OPEN =>
      simp only [canExecute, hc] at h ⊢
      split at h
      · simp at h
      · rename_i hcond
        rw [if_neg hcond]

/-- `writeEvent` on a fresh id with a healthy store and a CLOSED
circuit: inserts the document and reports `inserted`. -/
theorem writeEvent_insert (cfg : Config) (env : Env) (now opIdx : Nat) (e : RawEvent)
    (s : WriterState)
    (hclosed : s.circuitState = .CLOSED) (hf : env.storeFaults opIdx = none)
    (hfind : s.store.find? (fun p => p.1 == e.id) = none) :
    writeEvent cfg env now opIdx e s =
      (.ok ⟨true, true, e.id, false⟩,
       { s with store := s.store ++ [(e.id, e)],
                failureCount := 0,
                metrics := { s.metrics with
                  totalWrites := s.metrics.totalWrites + 1,
                  successfulWrites := s.metrics.successfulWrites + 1 } },
       opIdx + 1) := by
  rw [writeEvent, canExecute_closed hclosed]
  show writeEventBody cfg env now opIdx e s = _
  rw [writeEventBody]
  simp only [hf, hfind]
  rw [recordSuccess_in_closed (by simpa using hclosed)]

/-- `writeEvent` on an id already present, with a healthy store and a
CLOSED circuit: leaves the store untouched and reports `duplicate`. -/
theorem writeEvent_duplicate (cfg : Config) (env : Env) (now opIdx : Nat) (e : RawEvent)
    (s : WriterState) (q : String × RawEvent)
    (hclosed : s.circuitState = .CLOSED) (hf : env.storeFaults opIdx = none)
    (hfind : s.store.find? (fun p => p.1 == e.id) = some q) :
    writeEvent cfg env now opIdx e s =
      (.ok ⟨true, false, e.id, true⟩,
       { s with failureCount := 0,
                metrics := { s.metrics with
                  totalWrites := s.metrics.totalWrites + 1,
                  duplicateWrites := s.metrics.duplicateWrites + 1 } },
       opIdx + 1) := by
  rw [writeEvent, canExecute_closed hclosed]
  show writeEventBody cfg env now opIdx e s = _
  rw [writeEventBody]
  simp only [hf, hfind]
  rw [recordSuccess_in_closed (by simpa using hclosed)]

/-- `writeEvent` with a CLOSED circuit and a faulting store: counts the
failed attempt and rethrows the store's error. -/
theorem writeEvent_fault_closed (cfg : Config) (env : Env) (now opIdx : Nat)
    (e : RawEvent) (s : WriterState) (em : String)
    (hclosed : s.circuitState = .CLOSED) (hf : env.storeFaults opIdx = some em) :
    writeEvent cfg env now opIdx e s =
      (.error em,
       recordFailure cfg now { s with metrics := { s.metrics with
         totalWrites := s.metrics.totalWrites + 1,
         failedWrites := s.metrics.failedWrites + 1 } },
       opIdx + 1) := by
  rw [writeEvent, canExecute_closed hclosed]
  show writeEventBody cfg env now opIdx e s = _
  rw [writeEventBody]
  simp only [hf]

/-- `writeEvent` when the circuit rejects the call: no counter is
touched, no store operation is issued, and the call fails with the
circuit-open error. -/
theorem writeEvent_rejected (cfg : Config) (env : Env) (now opIdx : Nat)
    (e : RawEvent) (s : WriterState)
    (hcan : (canExecute cfg now s).1 = false) :
    writeEvent cfg env now opIdx e s = (.error circuitOpenMsg, s, opIdx) := by
  rw [writeEvent]
  rw [canExecute_false_eq hcan]
  simp

/-! ### C3 — idempotent writes -/

/-- C3: writing the same valid record twice, starting from a CLOSED
circuit, a healthy store and a store not yet containing the record's id,
reports `inserted` on the first call and `duplicate` (not inserted) on
the second, and leaves exactly one store entry under that id. -/
theorem writeEvent_idempotent (cfg : Config) (env : Env) (now : Nat) (opIdx : Nat)
    (e : RawEvent) (s : WriterState)
    (hvalid : isValidEvent e = true)
    (hclosed : s.circuitState = .CLOSED)
    (hfresh : ∀ p ∈ s.store, p.1 ≠ e.id)
    (hf1 : env.storeFaults opIdx = none)
    (hf2 : env.storeFaults (opIdx + 1) = none) :
    (writeEvent cfg env now opIdx e s).1 = .ok ⟨true, true, e.id, false⟩ ∧
    (writeEvent cfg env now (opIdx + 1) e
        (writeEvent cfg env now opIdx e s).2.1).1 = .ok ⟨true, false, e.id, true⟩ ∧
    ((writeEvent cfg env now (opIdx + 1) e
        (writeEvent cfg env now opIdx e s).2.1).2.1.store.filter
          (fun p => p.1 == e.id)).length = 1 := by
  have hfind : s.store.find? (fun p => p.1 == e.id) = none :=
    List.find?_eq_none.mpr (fun p hp => by simpa using hfresh p hp)
  have h1 := writeEvent_insert cfg env now opIdx e s hclosed hf1 hfind
  have hfind2 : (s.store ++ [(e.id, e)]).find? (fun p => p.1 == e.id) =
      some (e.id, e) := by
    rw [List.find?_append, hfind, List.find?_cons_of_pos _ (by simp)]
    rfl
  have h2 := writeEvent_duplicate cfg env now (opIdx + 1) e
    { s with store := s.store ++ [(e.id, e)],
             failureCount := 0,
             metrics := { s.metrics with
               totalWrites := s.metrics.totalWrites + 1,
               successfulWrites := s.metrics.successfulWrites + 1 } }
    (e.id, e) (by simpa using hclosed) hf2 (by simpa using hfind2)
  have hnil : s.store.filter (fun p => p.1 == e.id) = [] :=
    List.filter_eq_nil_iff.mpr (fun p hp => by simpa using hfresh p hp)
  refine ⟨?_, ?_, ?_⟩
  · rw [h1]
  · simp only [h1, h2]
  · simp only [h1, h2]
    simp [List.filter_append, hnil]

/-- C3 witness: the idempotency statement evaluated for `evA` on the
fresh writer with a healthy store. -/
theorem writeEvent_idempotent_witness :
    (writeEvent cfgDef envOk 0 0 evA freshWriter).1 = .ok ⟨true, true, evA.id, false⟩ ∧
    (writeEvent cfgDef envOk 0 1 evA
        (writeEvent cfgDef envOk 0 0 evA freshWriter).2.1).1 =
      .ok ⟨true, false, evA.id, true⟩ ∧
    ((writeEvent cfgDef envOk 0 1 evA
        (writeEvent cfgDef envOk 0 0 evA freshWriter).2.1).2.1.store.filter
          (fun p => p.1 == evA.id)).length = 1 :=
  writeEvent_idempotent cfgDef envOk 0 0 evA freshWriter (by decide) rfl
    (by simp [freshWriter]) rfl rfl

/-! ### State-preservation lemmas -/

/-- `canExecute` never touches the metrics. -/
theorem canExecute_metrics (cfg : Config) (now : Nat) (s : WriterState) :
    (canExecute cfg now s).2.metrics = s.metrics := by
  cases hc : s.circuitState with
  | CLOSED => simp [canExecute, hc]
  | HALF_OPEN => simp [canExecute, hc]
  | OPEN =>
      simp only [canExecute, hc]
      split <;> rfl

/-- `canExecute` never touches the store. -/
theorem canExecute_store (cfg : Config) (now : Nat) (s : WriterState) :
    (canExecute cfg now s).2.store = s.store := by
  cases hc : s.circuitState with
  | CLOSED => simp [canExecute, hc]
  | HALF_OPEN => simp [canExecute, hc]
  | OPEN =>
      simp only [canExecute, hc]
      split <;> rfl

/-- `recordFailure` never touches the metrics. -/
theorem recordFailure_metrics (cfg : Config) (now : Nat) (s : WriterState) :
    (recordFailure cfg now s).metrics = s.metrics := by
  simp only [recordFailure]
  split
  · rfl
  · split <;> rfl

/-- `recordFailure` never touches the store. -/
theorem recordFailure_store (cfg : Config) (now : Nat) (s : WriterState) :
    (recordFailure cfg now s).store = s.store := by
  simp only [recordFailure]
  split
  · rfl
  · split <;> rfl

/-- `recordSuccess` never touches the metrics. -/
theorem recordSuccess_metrics (cfg : Config) (s : WriterState) :
    (recordSuccess cfg s).metrics = s.metrics := by
  simp only [recordSuccess]
  split
  · split <;> rfl
  · rfl

/-- `recordSuccess` never touches the store. -/
theorem recordSuccess_store (cfg : Config) (s : WriterState) :
    (recordSuccess cfg s).store = s.store := by
  simp only [recordSuccess]
  split
  · split <;> rfl
  · rfl

/-- A `true` answer from `canExecute` packaged as a pair equation. -/
theorem canExecute_true_eq {cfg : Config} {now : Nat} {s : WriterState}
    (h : (canExecute cfg now s).1 = true) :
    canExecute cfg now s = (true, (canExecute cfg now s).2) := by
  rw [← h]

/-! ### C8 — write metrics -/

/-- C8 counterexample: with the breaker OPEN and the timeout not yet
elapsed, `writeEvent` throws the circuit-open error without touching any
counter — the write-attempt counter stays 0 instead of being
incremented, so circuit-rejected calls are not counted. -/
theorem writeEvent_metrics_counterexample :
    writeEvent cfgW envOk 105 0 evA openW = (.error circuitOpenMsg, openW, 0) ∧
    openW.metrics.totalWrites = 0 ∧
    (writeEvent cfgW envOk 105 0 evA openW).2.1.metrics.totalWrites = 0 ∧
    (writeEvent cfgW envOk 105 0 evA openW).2.1.metrics.totalWrites ≠
      openW.metrics.totalWrites + 1 := by
  refine ⟨rfl, rfl, rfl, by decide⟩

/-- C8 (amended): a call rejected by the circuit breaker throws the
circuit-open error and leaves the writer state (all counters included)
untouched; a call the breaker admits increments the write-attempt
counter by exactly one and exactly one outcome counter — the failure
counter when the store faults, the success counter on an insert, the
duplicate counter on a duplicate. -/
theorem writeEvent_metrics_discipline (cfg : Config) (env : Env) (now opIdx : Nat)
    (e : RawEvent) (s : WriterState) :
    ((canExecute cfg now s).1 = false →
      writeEvent cfg env now opIdx e s = (.error circuitOpenMsg, s, opIdx)) ∧
    ((canExecute cfg now s).1 = true →
      (writeEvent cfg env now opIdx e s).2.1.metrics.totalWrites =
        s.metrics.totalWrites + 1 ∧
      (writeEvent cfg env now opIdx e s).2.1.metrics.batchWrites =
        s.metrics.batchWrites ∧
      ((∃ em, (writeEvent cfg env now opIdx e s).1 = .error em ∧
          (writeEvent cfg env now opIdx e s).2.1.metrics.failedWrites =
            s.metrics.failedWrites + 1 ∧
          (writeEvent cfg env now opIdx e s).2.1.metrics.successfulWrites =
            s.metrics.successfulWrites ∧
          (writeEvent cfg env now opIdx e s).2.1.metrics.duplicateWrites =
            s.metrics.duplicateWrites) ∨
        ((writeEvent cfg env now opIdx e s).1 = .ok ⟨true, true, e.id, false⟩ ∧
          (writeEvent cfg env now opIdx e s).2.1.metrics.successfulWrites =
            s.metrics.successfulWrites + 1 ∧
          (writeEvent cfg env now opIdx e s).2.1.metrics.failedWrites =
            s.metrics.failedWrites ∧
          (writeEvent cfg env now opIdx e s).2.1.metrics.duplicateWrites =
            s.metrics.duplicateWrites) ∨
        ((writeEvent cfg env now opIdx e s).1 = .ok ⟨true, false, e.id, true⟩ ∧
          (writeEvent cfg env now opIdx e s).2.1.metrics.duplicateWrites =
            s.metrics.duplicateWrites + 1 ∧
          (writeEvent cfg env now opIdx e s).2.1.metrics.failedWrites =
            s.metrics.failedWrites ∧
          (writeEvent cfg env now opIdx e s).2.1.metrics.successfulWrites =
            s.metrics.successfulWrites))) := by
  constructor
  · intro hcan
    exact writeEvent_rejected cfg env now opIdx e s hcan
  · intro hcan
    have hwe : writeEvent cfg env now opIdx e s =
        writeEventBody cfg env now opIdx e (canExecute cfg now s).2 := by
      rw [writeEvent, canExecute_true_eq hcan]
      simp
    have hm2 : (canExecute cfg now s).2.metrics = s.metrics := canExecute_metrics cfg now s
    rw [hwe, writeEventBody]
    cases hsf : env.storeFaults opIdx with
    | some em =>
        simp [hsf, recordFailure_metrics, hm2]
    | none =>
        cases hfind : (canExecute cfg now s).2.store.find? (fun p => p.1 == e.id) with
        | some q =>
            simp [hsf, hfind, recordSuccess_metrics, hm2]
        | none =>
            simp [hsf, hfind, recordSuccess_metrics, hm2]

/-- C8 witness: the amended statement evaluated on the fresh writer (an
admitted insert) — the rejected clause holds vacuously there, and the
admitted clause is discharged on the CLOSED breaker. -/
theorem writeEvent_metrics_discipline_witness :
    (writeEvent cfgDef envOk 0 0 evA freshWriter).2.1.metrics.totalWrites =
      freshWriter.metrics.totalWrites + 1 ∧
    (writeEvent cfgDef envOk 0 0 evA freshWriter).2.1.metrics.batchWrites =
      freshWriter.metrics.batchWrites ∧
    ((∃ em, (writeEvent cfgDef envOk 0 0 evA freshWriter).1 = .error em ∧
        (writeEvent cfgDef envOk 0 0 evA freshWriter).2.1.metrics.failedWrites =
          freshWriter.metrics.failedWrites + 1 ∧
        (writeEvent cfgDef envOk 0 0 evA freshWriter).2.1.metrics.successfulWrites =
          freshWriter.metrics.successfulWrites ∧
        (writeEvent cfgDef envOk 0 0 evA freshWriter).2.1.metrics.duplicateWrites =
          freshWriter.metrics.duplicateWrites) ∨
      ((writeEvent cfgDef envOk 0 0 evA freshWriter).1 = .ok ⟨true, true, evA.id, false⟩ ∧
        (writeEvent cfgDef envOk 0 0 evA freshWriter).2.1.metrics.successfulWrites =
          freshWriter.metrics.successfulWrites + 1 ∧
        (writeEvent cfgDef envOk 0 0 evA freshWriter).2.1.metrics.failedWrites =
          freshWriter.metrics.failedWrites ∧
        (writeEvent cfgDef envOk 0 0 evA freshWriter).2.1.metrics.duplicateWrites =
          freshWriter.metrics.duplicateWrites) ∨
      ((writeEvent cfgDef envOk 0 0 evA freshWriter).1 = .ok ⟨true, false, evA.id, true⟩ ∧
        (writeEvent cfgDef envOk 0 0 evA freshWriter).2.1.metrics.duplicateWrites =
          freshWriter.metrics.duplicateWrites + 1 ∧
        (writeEvent cfgDef envOk 0 0 evA freshWriter).2.1.metrics.failedWrites =
          freshWriter.metrics.failedWrites ∧
        (writeEvent cfgDef envOk 0 0 evA freshWriter).2.1.metrics.successfulWrites =
          freshWriter.metrics.successfulWrites)) :=
  (writeEvent_metrics_discipline cfgDef envOk 0 0 evA freshWriter).2 rfl


/-! ### Retry helper lemmas for C4 -/

/-- One retry step: a successful `writeEvent` returns immediately. -/
theorem retry_step_ok {cfg : Config} {env : Env} {now : Nat} {e : RawEvent}
    {s s2 : WriterState} {opIdx opIdx2 attempt : Nat} {r : WriteResult}
    (hwe : writeEvent cfg env now opIdx e s = (.ok r, s2, opIdx2)) :
    writeEventWithRetry cfg env now e s opIdx attempt = ⟨.ok r, s2, opIdx2, 1, []⟩ := by
  rw [writeEventWithRetry, hwe]

/-- One retry step: a failing `writeEvent` on the final attempt rethrows
the error unchanged. -/
theorem retry_step_error_final {cfg : Config} {env : Env} {now : Nat} {e : RawEvent}
    {s s2 : WriterState} {opIdx opIdx2 attempt : Nat} {em : String}
    (hwe : writeEvent cfg env now opIdx e s = (.error em, s2, opIdx2))
    (hge : cfg.maxAttempts ≤ attempt) :
    writeEventWithRetry cfg env now e s opIdx attempt = ⟨.error em, s2, opIdx2, 1, []⟩ := by
  rw [writeEventWithRetry, hwe]
  exact dif_pos hge

/-- One retry step: a failing `writeEvent` below the attempt cap sleeps
the capped backoff delay and recurses with the next attempt number. -/
theorem retry_step_error {cfg : Config} {env : Env} {now : Nat} {e : RawEvent}
    {s s2 : WriterState} {opIdx opIdx2 attempt : Nat} {em : String}
    (hwe : writeEvent cfg env now opIdx e s = (.error em, s2, opIdx2))
    (hlt : ¬ cfg.maxAttempts ≤ attempt) :
    writeEventWithRetry cfg env now e s opIdx attempt =
      ⟨(writeEventWithRetry cfg env now e s2 opIdx2 (attempt + 1)).result,
       (writeEventWithRetry cfg env now e s2 opIdx2 (attempt + 1)).writer,
       (writeEventWithRetry cfg env now e s2 opIdx2 (attempt + 1)).opIdx,
       (writeEventWithRetry cfg env now e s2 opIdx2 (attempt + 1)).attemptsUsed + 1,
       min (cfg.initialDelay * cfg.backoffMultiplier ^ (attempt - 1)) cfg.maxDelay ::
         (writeEventWithRetry cfg env now e s2 opIdx2 (attempt + 1)).delays⟩ := by
  rw [writeEventWithRetry, hwe]
  exact dif_neg hlt

/-- Mapping over `range (n+1)` splits into the head at 0 and a shifted
map over `range n`. -/
theorem map_range_succ_shift (n : Nat) (f g : Nat → Nat) (hfg : ∀ j, f (j + 1) = g j) :
    (List.range (n + 1)).map f = f 0 :: (List.range n).map g := by
  have ht : (List.range n).map (f ∘ (· + 1)) = (List.range n).map g :=
    List.map_congr_left (fun a _ => hfg a)
  rw [List.range_succ_eq_map, List.map_cons, List.map_map, ht]

/-- The backoff schedule shifts by one when the starting attempt number
shifts by one. -/
theorem delays_range_shift (cfg : Config) (n attempt : Nat) (hatt : 1 ≤ attempt) :
    (List.range (n + 1)).map
        (fun j => min (cfg.initialDelay * cfg.backoffMultiplier ^ (attempt - 1 + j))
          cfg.maxDelay) =
      min (cfg.initialDelay * cfg.backoffMultiplier ^ (attempt - 1)) cfg.maxDelay ::
        (List.range n).map
          (fun j => min (cfg.initialDelay * cfg.backoffMultiplier ^ (attempt + j))
            cfg.maxDelay) := by
  have h := map_range_succ_shift n
    (fun j => min (cfg.initialDelay * cfg.backoffMultiplier ^ (attempt - 1 + j)) cfg.maxDelay)
    (fun j => min (cfg.initialDelay * cfg.backoffMultiplier ^ (attempt + j)) cfg.maxDelay)
    (fun j => by
      show min (cfg.initialDelay * cfg.backoffMultiplier ^ (attempt - 1 + (j + 1)))
            cfg.maxDelay =
          min (cfg.initialDelay * cfg.backoffMultiplier ^ (attempt + j)) cfg.maxDelay
      rw [show attempt - 1 + (j + 1) = attempt + j by omega])
  rw [h]
  simp

/-- A run of `writeEventWithRetry` whose first `n` store operations
fault and whose next one succeeds, starting from a CLOSED breaker far
enough from the failure threshold: the run makes exactly `n + 1`
attempts, sleeps the capped exponential backoff schedule, and returns
the final attempt's success. -/
theorem retry_fails_then_succeeds (cfg : Config) (env : Env) (now : Nat) (e : RawEvent) :
    ∀ (n : Nat) (s : WriterState) (opIdx attempt : Nat),
      s.circuitState = .CLOSED →
      s.failureCount + n < cfg.failureThreshold →
      1 ≤ attempt → attempt + n ≤ cfg.maxAttempts →
      (∀ k, k < n → (env.storeFaults (opIdx + k)).isSome = true) →
      env.storeFaults (opIdx + n) = none →
      (writeEventWithRetry cfg env now e s opIdx attempt).attemptsUsed = n + 1 ∧
      (writeEventWithRetry cfg env now e s opIdx attempt).delays =
        (List.range n).map
          (fun j => min (cfg.initialDelay * cfg.backoffMultiplier ^ (attempt - 1 + j))
            cfg.maxDelay) ∧
      ∃ r, (writeEventWithRetry cfg env now e s opIdx attempt).result = .ok r ∧
        r.success = true ∧ r.eventId = e.id := by
  intro n
  induction n with
  | zero =>
      intro s opIdx attempt hclosed hth hatt hmax hfaults hnone
      rw [Nat.add_zero] at hnone
      cases hfind : s.store.find? (fun p => p.1 == e.id) with
      | none =>
          rw [retry_step_ok (writeEvent_insert cfg env now opIdx e s hclosed hnone hfind)]
          exact ⟨rfl, rfl, ⟨⟨true, true, e.id, false⟩, rfl, rfl, rfl⟩⟩
      | some q =>
          rw [retry_step_ok (writeEvent_duplicate cfg env now opIdx e s q hclosed hnone hfind)]
          exact ⟨rfl, rfl, ⟨⟨true, false, e.id, true⟩, rfl, rfl, rfl⟩⟩
  | succ n ih =>
      intro s opIdx attempt hclosed hth hatt hmax hfaults hnone
      obtain ⟨em, hsf⟩ : ∃ em, env.storeFaults opIdx = some em := by
        have h0 := hfaults 0 (by omega)
        rw [Nat.add_zero] at h0
        exact Option.isSome_iff_exists.mp h0
      have hstep := retry_step_error
        (writeEvent_fault_closed cfg env now opIdx e s em hclosed hsf)
        (show ¬ cfg.maxAttempts ≤ attempt by omega)
      have hlt1 : s.failureCount + 1 < cfg.failureThreshold := by omega
      have hrf := @recordFailure_stays_closed cfg now
        { s with metrics := { s.metrics with
          totalWrites := s.metrics.totalWrites + 1,
          failedWrites := s.metrics.failedWrites + 1 } }
        (by simpa using hclosed) (by simpa using hlt1)
      rw [hrf] at hstep
      have hrec := ih
        { s with failureCount := s.failureCount + 1, lastFailureTime := some now,
                 metrics := { s.metrics with
                   totalWrites := s.metrics.totalWrites + 1,
                   failedWrites := s.metrics.failedWrites + 1 } }
        (opIdx + 1) (attempt + 1) hclosed
        (by simpa using (show s.failureCount + 1 + n < cfg.failureThreshold by omega))
        (by omega) (by omega)
        (fun k hk => by
          have hx := hfaults (k + 1) (by omega)
          rw [show opIdx + (k + 1) = opIdx + 1 + k by omega] at hx
          exact hx)
        (by rw [show opIdx + 1 + n = opIdx + (n + 1) by omega]; exact hnone)
      rw [hstep]
      refine ⟨?_, ?_, ?_⟩
      · show (writeEventWithRetry cfg env now e _ (opIdx + 1) (attempt + 1)).attemptsUsed + 1 = n + 1 + 1
        rw [hrec.1]
      · show (min (cfg.initialDelay * cfg.backoffMultiplier ^ (attempt - 1)) cfg.maxDelay ::
            (writeEventWithRetry cfg env now e _ (opIdx + 1) (attempt + 1)).delays) = _
        rw [hrec.2.1, delays_range_shift cfg n attempt hatt]
        simp
      · obtain ⟨r, hr, hsucc, hid⟩ := hrec.2.2
        exact ⟨r, hr, hsucc, hid⟩
/-- A run of `writeEventWithRetry` in which every store operation
faults, with the breaker staying CLOSED throughout: the run makes every
remaining attempt and rethrows the final attempt's error unchanged. -/
theorem retry_all_fail (cfg : Config) (env : Env) (now : Nat) (e : RawEvent) :
    ∀ (d : Nat) (F : Nat → String) (s : WriterState) (opIdx attempt : Nat),
      attempt + d = cfg.maxAttempts → 1 ≤ attempt →
      s.circuitState = .CLOSED →
      s.failureCount + d < cfg.failureThreshold →
      (∀ k, env.storeFaults (opIdx + k) = some (F k)) →
      (writeEventWithRetry cfg env now e s opIdx attempt).result = .error (F d) ∧
      (writeEventWithRetry cfg env now e s opIdx attempt).attemptsUsed = d + 1 := by
  intro d
  induction d with
  | zero =>
      intro F s opIdx attempt hda hatt hclosed hth hfaults
      have hsf : env.storeFaults opIdx = some (F 0) := by
        have h0 := hfaults 0
        rwa [Nat.add_zero] at h0
      rw [retry_step_error_final
        (writeEvent_fault_closed cfg env now opIdx e s (F 0) hclosed hsf) (by omega)]
      exact ⟨rfl, rfl⟩
  | succ d ih =>
      intro F s opIdx attempt hda hatt hclosed hth hfaults
      have hsf : env.storeFaults opIdx = some (F 0) := by
        have h0 := hfaults 0
        rwa [Nat.add_zero] at h0
      have hstep := retry_step_error
        (writeEvent_fault_closed cfg env now opIdx e s (F 0) hclosed hsf)
        (show ¬ cfg.maxAttempts ≤ attempt by omega)
      have hrf := @recordFailure_stays_closed cfg now
        { s with metrics := { s.metrics with
          totalWrites := s.metrics.totalWrites + 1,
          failedWrites := s.metrics.failedWrites + 1 } }
        (by simpa using hclosed)
        (by simpa using (show s.failureCount + 1 < cfg.failureThreshold by omega))
      rw [hrf] at hstep
      have hrec := ih (fun k => F (k + 1))
        { s with failureCount := s.failureCount + 1, lastFailureTime := some now,
                 metrics := { s.metrics with
                   totalWrites := s.metrics.totalWrites + 1,
                   failedWrites := s.metrics.failedWrites + 1 } }
        (opIdx + 1) (attempt + 1) (by omega) (by omega) hclosed
        (by simpa using (show s.failureCount + 1 + d < cfg.failureThreshold by omega))
        (fun k => by
          have hx := hfaults (k + 1)
          rwa [show opIdx + (k + 1) = opIdx + 1 + k by omega] at hx)
      rw [hstep]
      refine ⟨?_, ?_⟩
      · show (writeEventWithRetry cfg env now e _ (opIdx + 1) (attempt + 1)).result =
          .error (F (d + 1))
        rw [hrec.1]
      · show (writeEventWithRetry cfg env now e _ (opIdx + 1) (attempt + 1)).attemptsUsed + 1 =
          d + 1 + 1
        rw [hrec.2]

/-! ### C4 — retry policy -/

/-- C4: the retry wrapper entered at attempt 1 with a CLOSED breaker far
from its threshold.  First, when the first `n` store operations fault
and the next succeeds, with `maxAttempts > n`: the wrapper returns the
success result after exactly `n + 1` attempts, sleeping
`min (initialDelay * backoffMultiplier ^ (k-1), maxDelay)` after each
failing attempt `k` (the schedule for `k = 1 … n`).  Second, when every
store operation faults: the wrapper makes all `maxAttempts` attempts and
rethrows the final attempt's error unchanged — neither wrapped nor
swallowed. -/
theorem writeEventWithRetry_policy (cfg : Config) (env : Env) (now : Nat) (e : RawEvent) :
    (∀ (n : Nat) (s : WriterState) (opIdx : Nat),
      s.circuitState = .CLOSED →
      s.failureCount + n < cfg.failureThreshold →
      n + 1 ≤ cfg.maxAttempts →
      (∀ k, k < n → (env.storeFaults (opIdx + k)).isSome = true) →
      env.storeFaults (opIdx + n) = none →
      (writeEventWithRetry cfg env now e s opIdx 1).attemptsUsed = n + 1 ∧
      (writeEventWithRetry cfg env now e s opIdx 1).delays =
        (List.range n).map
          (fun j => min (cfg.initialDelay * cfg.backoffMultiplier ^ j) cfg.maxDelay) ∧
      ∃ r, (writeEventWithRetry cfg env now e s opIdx 1).result = .ok r ∧
        r.success = true ∧ r.eventId = e.id) ∧
    (∀ (F : Nat → String) (s : WriterState) (opIdx : Nat),
      1 ≤ cfg.maxAttempts →
      s.circuitState = .CLOSED →
      s.failureCount + cfg.maxAttempts ≤ cfg.failureThreshold →
      (∀ k, env.storeFaults (opIdx + k) = some (F k)) →
      (writeEventWithRetry cfg env now e s opIdx 1).result =
        .error (F (cfg.maxAttempts - 1)) ∧
      (writeEventWithRetry cfg env now e s opIdx 1).attemptsUsed = cfg.maxAttempts) := by
  constructor
  · intro n s opIdx hclosed hth hmax hfaults hnone
    have h := retry_fails_then_succeeds cfg env now e n s opIdx 1 hclosed hth (by omega)
      (by omega) hfaults hnone
    refine ⟨h.1, ?_, h.2.2⟩
    rw [h.2.1]
    simp
  · intro F s opIdx hmax hclosed hth hfaults
    have h := retry_all_fail cfg env now e (cfg.maxAttempts - 1) F s opIdx 1
      (by omega) (by omega) hclosed (by omega) hfaults
    exact ⟨h.1, by rw [h.2]; omega⟩

/-- An environment whose store faults on the first two operations and
then recovers. -/
def envRetry : Env :=
  ⟨fun k => if k < 2 then some "store down" else none, fun _ => none, decode0⟩

/-- An environment whose store faults on every operation. -/
def envStoreDown : Env := ⟨fun _ => some "store down", fun _ => none, decode0⟩

/-- C4 witness: with the default configuration (3 attempts, 1000 ms
initial delay, multiplier 2), a store failing twice then recovering
yields success in 3 attempts with delays 1000 and 2000; a store that
always faults makes all 3 attempts and rethrows its error. -/
theorem writeEventWithRetry_policy_witness :
    ((writeEventWithRetry cfgDef envRetry 50 evA freshWriter 0 1).attemptsUsed = 3 ∧
      (writeEventWithRetry cfgDef envRetry 50 evA freshWriter 0 1).delays = [1000, 2000] ∧
      ∃ r, (writeEventWithRetry cfgDef envRetry 50 evA freshWriter 0 1).result = .ok r ∧
        r.success = true ∧ r.eventId = evA.id) ∧
    ((writeEventWithRetry cfgDef envStoreDown 50 evA freshWriter 0 1).result =
        .error "store down" ∧
      (writeEventWithRetry cfgDef envStoreDown 50 evA freshWriter 0 1).attemptsUsed = 3) := by
  constructor
  · have h := (writeEventWithRetry_policy cfgDef envRetry 50 evA).1 2 freshWriter 0
      rfl (by decide) (by decide) (by decide) rfl
    refine ⟨h.1, ?_, h.2.2⟩
    rw [h.2.1]
    rfl
  · exact (writeEventWithRetry_policy cfgDef envStoreDown 50 evA).2
      (fun _ => "store down") freshWriter 0 (by decide) rfl (by decide) (fun k => rfl)


/-! ### Pipeline helper lemmas -/

/-- `sendToDLQ` on a healthy channel: the full success equation. -/
theorem sendToDLQ_ok (cfg : Config) (env : Env) (now : Nat) (m : Message) (reason : String)
    (st : PipeState) (h : env.dlqFaults st.dlqIdx = none) :
    sendToDLQ cfg env now m reason st =
      (.ok (), { st with
        cmetrics := { st.cmetrics with dlqMessages := st.cmetrics.dlqMessages + 1 },
        dlq := st.dlq ++ [⟨m.key, m.value, dlqHeaders cfg now m.headers reason⟩],
        dlqIdx := st.dlqIdx + 1 }) := by
  simp [sendToDLQ, h]

/-- `sendToDLQ` on a failing channel: the full failure equation. -/
theorem sendToDLQ_err (cfg : Config) (env : Env) (now : Nat) (m : Message) (reason : String)
    (st : PipeState) (e2 : String) (h : env.dlqFaults st.dlqIdx = some e2) :
    sendToDLQ cfg env now m reason st =
      (.error e2, { st with
        cmetrics := { st.cmetrics with dlqMessages := st.cmetrics.dlqMessages + 1 },
        dlqIdx := st.dlqIdx + 1 }) := by
  simp [sendToDLQ, h]

/-- The `catch` block on a healthy dead-letter channel: counts the
failure, appends the dead-letter message and commits the offset. -/
theorem handleFailure_ok (cfg : Config) (env : Env) (now : Nat) (m : Message) (emsg : String)
    (st : PipeState) (h : env.dlqFaults st.dlqIdx = none) :
    handleFailure cfg env now m emsg st =
      (.ok (), { st with
        cmetrics := { st.cmetrics with
          messagesFailed := st.cmetrics.messagesFailed + 1,
          dlqMessages := st.cmetrics.dlqMessages + 1 },
        dlq := st.dlq ++ [⟨m.key, m.value, dlqHeaders cfg now m.headers emsg⟩],
        dlqIdx := st.dlqIdx + 1,
        committed := st.committed ++ [m.offset] }) := by
  rw [handleFailure, sendToDLQ_ok cfg env now m emsg _ (by simpa using h)]

/-- The `catch` block on a failing dead-letter channel: counts the
failure, rethrows the append error and does not commit. -/
theorem handleFailure_err (cfg : Config) (env : Env) (now : Nat) (m : Message) (emsg : String)
    (st : PipeState) (e2 : String) (h : env.dlqFaults st.dlqIdx = some e2) :
    handleFailure cfg env now m emsg st =
      (.error e2, { st with
        cmetrics := { st.cmetrics with
          messagesFailed := st.cmetrics.messagesFailed + 1,
          dlqMessages := st.cmetrics.dlqMessages + 1 },
        dlqIdx := st.dlqIdx + 1 }) := by
  rw [handleFailure, sendToDLQ_err cfg env now m emsg _ e2 (by simpa using h)]

/-- `writeEventBody` only appends to the store. -/
theorem writeEventBody_store_mono (cfg : Config) (env : Env) (now opIdx : Nat)
    (e : RawEvent) (s : WriterState) :
    ∃ t, (writeEventBody cfg env now opIdx e s).2.1.store = s.store ++ t := by
  rw [writeEventBody]
  cases hsf : env.storeFaults opIdx with
  | some em => exact ⟨[], by simp [recordFailure_store]⟩
  | none =>
      cases hfind : ({ s with metrics := { s.metrics with
          totalWrites := s.metrics.totalWrites + 1 } } : WriterState).store.find?
            (fun p => p.1 == e.id) with
      | some q => exact ⟨[], by simp [hfind, recordSuccess_store]⟩
      | none => exact ⟨[(e.id, e)], by simp [hfind, recordSuccess_store]⟩

/-- `writeEvent` only appends to the store. -/
theorem writeEvent_store_mono (cfg : Config) (env : Env) (now opIdx : Nat)
    (e : RawEvent) (s : WriterState) :
    ∃ t, (writeEvent cfg env now opIdx e s).2.1.store = s.store ++ t := by
  by_cases hcan : (canExecute cfg now s).1 = true
  · have hwe : writeEvent cfg env now opIdx e s =
        writeEventBody cfg env now opIdx e (canExecute cfg now s).2 := by
      rw [writeEvent, canExecute_true_eq hcan]
      simp
    rw [hwe]
    obtain ⟨t, ht⟩ := writeEventBody_store_mono cfg env now opIdx e (canExecute cfg now s).2
    rw [canExecute_store] at ht
    exact ⟨t, ht⟩
  · rw [writeEvent_rejected cfg env now opIdx e s (by simpa using hcan)]
    exact ⟨[], by simp⟩

/-- A successful `writeEventBody` leaves the event's id present in the
store. -/
theorem writeEventBody_ok_stored (cfg : Config) (env : Env) (now opIdx : Nat)
    (e : RawEvent) (s s2 : WriterState) (r : WriteResult) (op2 : Nat)
    (hwe : writeEventBody cfg env now opIdx e s = (.ok r, s2, op2)) :
    s2.store.any (fun p => p.1 == e.id) = true := by
  rw [writeEventBody] at hwe
  cases hsf : env.storeFaults opIdx with
  | some em => rw [hsf] at hwe; simp at hwe
  | none =>
      rw [hsf] at hwe
      cases hfind : ({ s with metrics := { s.metrics with
          totalWrites := s.metrics.totalWrites + 1 } } : WriterState).store.find?
            (fun p => p.1 == e.id) with
      | some q =>
          rw [hfind] at hwe
          have hs2 : s2 = recordSuccess cfg { s with metrics := { s.metrics with
              totalWrites := s.metrics.totalWrites + 1,
              duplicateWrites := s.metrics.duplicateWrites + 1 } } := by
            have := congrArg (fun x => x.2.1) hwe
            simpa using this.symm
          rw [hs2, recordSuccess_store]
          have hq : q ∈ s.store ∧ (q.1 == e.id) = true := by
            have hmem := List.mem_of_find?_eq_some hfind
            have hpred := List.find?_some hfind
            exact ⟨by simpa using hmem, hpred⟩
          simp only []
          exact List.any_eq_true.mpr ⟨q, hq.1, hq.2⟩
      | none =>
          rw [hfind] at hwe
          have hs2 : s2 = recordSuccess cfg { s with
              store := s.store ++ [(e.id, e)],
              metrics := { s.metrics with
                totalWrites := s.metrics.totalWrites + 1,
                successfulWrites := s.metrics.successfulWrites + 1 } } := by
            have := congrArg (fun x => x.2.1) hwe
            simpa using this.symm
          rw [hs2, recordSuccess_store]
          simp

/-- A successful `writeEvent` leaves the event's id present in the
store. -/
theorem writeEvent_ok_stored (cfg : Config) (env : Env) (now opIdx : Nat)
    (e : RawEvent) (s s2 : WriterState) (r : WriteResult) (op2 : Nat)
    (hwe : writeEvent cfg env now opIdx e s = (.ok r, s2, op2)) :
    s2.store.any (fun p => p.1 == e.id) = true := by
  by_cases hcan : (canExecute cfg now s).1 = true
  · have hwe2 : writeEventBody cfg env now opIdx e (canExecute cfg now s).2 =
        (.ok r, s2, op2) := by
      rw [← hwe, writeEvent, canExecute_true_eq hcan]
      simp
    exact writeEventBody_ok_stored cfg env now opIdx e _ s2 r op2 hwe2
  · rw [writeEvent_rejected cfg env now opIdx e s (by simpa using hcan)] at hwe
    simp at hwe

/-- `writeEventWithRetry` only appends to the store. -/
theorem retry_store_mono (cfg : Config) (env : Env) (now : Nat) (e : RawEvent) :
    ∀ (d : Nat) (s : WriterState) (opIdx attempt : Nat),
      cfg.maxAttempts - attempt ≤ d →
      ∃ t, (writeEventWithRetry cfg env now e s opIdx attempt).writer.store =
        s.store ++ t := by
  intro d
  induction d with
  | zero =>
      intro s opIdx attempt hd
      rcases hwe : writeEvent cfg env now opIdx e s with ⟨res, s2, op2⟩
      cases res with
      | ok r =>
          rw [retry_step_ok hwe]
          obtain ⟨t, ht⟩ := writeEvent_store_mono cfg env now opIdx e s
          rw [hwe] at ht
          exact ⟨t, ht⟩
      | error em =>
          rw [retry_step_error_final hwe (by omega)]
          obtain ⟨t, ht⟩ := writeEvent_store_mono cfg env now opIdx e s
          rw [hwe] at ht
          exact ⟨t, ht⟩
  | succ d ih =>
      intro s opIdx attempt hd
      rcases hwe : writeEvent cfg env now opIdx e s with ⟨res, s2, op2⟩
      obtain ⟨t, ht⟩ := writeEvent_store_mono cfg env now opIdx e s
      rw [hwe] at ht
      cases res with
      | ok r =>
          rw [retry_step_ok hwe]
          exact ⟨t, ht⟩
      | error em =>
          by_cases hge : cfg.maxAttempts ≤ attempt
          · rw [retry_step_error_final hwe hge]
            exact ⟨t, ht⟩
          · rw [retry_step_error hwe hge]
            obtain ⟨t2, ht2⟩ := ih s2 op2 (attempt + 1) (by omega)
            exact ⟨t ++ t2, by
              show (writeEventWithRetry cfg env now e s2 op2 (attempt + 1)).writer.store =
                s.store ++ (t ++ t2)
              rw [ht2, ht, List.append_assoc]⟩

/-- A successful `writeEventWithRetry` leaves the event's id present in
the store. -/
theorem retry_ok_stored (cfg : Config) (env : Env) (now : Nat) (e : RawEvent) :
    ∀ (d : Nat) (s : WriterState) (opIdx attempt : Nat),
      cfg.maxAttempts - attempt ≤ d →
      ∀ r, (writeEventWithRetry cfg env now e s opIdx attempt).result = .ok r →
      (writeEventWithRetry cfg env now e s opIdx attempt).writer.store.any
        (fun p => p.1 == e.id) = true := by
  intro d
  induction d with
  | zero =>
      intro s opIdx attempt hd r hres
      rcases hwe : writeEvent cfg env now opIdx e s with ⟨res, s2, op2⟩
      cases res with
      | ok r2 =>
          rw [retry_step_ok hwe]
          exact writeEvent_ok_stored cfg env now opIdx e s s2 r2 op2 hwe
      | error em =>
          rw [retry_step_error_final hwe (by omega)] at hres
          simp at hres
  | succ d ih =>
      intro s opIdx attempt hd r hres
      rcases hwe : writeEvent cfg env now opIdx e s with ⟨res, s2, op2⟩
      cases res with
      | ok r2 =>
          rw [retry_step_ok hwe]
          exact writeEvent_ok_stored cfg env now opIdx e s s2 r2 op2 hwe
      | error em =>
          by_cases hge : cfg.maxAttempts ≤ attempt
          · rw [retry_step_error_final hwe hge] at hres
            simp at hres
          · rw [retry_step_error hwe hge] at hres ⊢
            exact ih s2 op2 (attempt + 1) (by omega) r hres


/-- `handledBy` on an unparseable message reduces to the dead-letter
check. -/
theorem handledBy_none {env : Env} {st : PipeState} {m : Message}
    (hp : parseMessage env m = none) :
    handledBy env st m = st.dlq.any (fun d => d.value == m.value) := by
  simp [handledBy, hp]

/-- `handledBy` on a decodable message checks the store and the
dead-letter topic. -/
theorem handledBy_some {env : Env} {st : PipeState} {m : Message} {ev : RawEvent}
    (hp : parseMessage env m = some ev) :
    handledBy env st m =
      (st.writer.store.any (fun p => p.1 == ev.id) ||
        st.dlq.any (fun d => d.value == m.value)) := by
  simp [handledBy, hp]

/-- `any` survives appending on the right. -/
theorem any_append_left {α : Type} (l t : List α) (p : α → Bool) (h : l.any p = true) :
    (l ++ t).any p = true := by
  simp [List.any_append, h]

/-- A handled message stays handled when the store and the dead-letter
topic only grow. -/
theorem handledBy_mono (env : Env) (st st' : PipeState) (m : Message)
    (hs : ∃ t, st'.writer.store = st.writer.store ++ t)
    (hd : ∃ t, st'.dlq = st.dlq ++ t)
    (h : handledBy env st m = true) : handledBy env st' m = true := by
  obtain ⟨t1, h1⟩ := hs
  obtain ⟨t2, h2⟩ := hd
  cases hp : parseMessage env m with
  | none =>
      rw [handledBy_none hp] at h ⊢
      rw [h2]
      exact any_append_left _ _ _ h
  | some ev =>
      rw [handledBy_some hp] at h ⊢
      rw [h1, h2]
      rcases Bool.or_eq_true_iff.mp h with h | h
      · exact Bool.or_eq_true_iff.mpr (Or.inl (any_append_left _ _ _ h))
      · exact Bool.or_eq_true_iff.mpr (Or.inr (any_append_left _ _ _ h))

/-- `processStep` on an unparseable/invalid message with a healthy
dead-letter channel: dead-letter with reason "Invalid message format",
commit the offset, leave the writer untouched. -/
theorem processStep_invalid_eq (cfg : Config) (env : Env) (now : Nat) (m : Message)
    (st : PipeState)
    (hp : parseMessage env m = none) (hdlq : env.dlqFaults st.dlqIdx = none) :
    processStep cfg env now m st =
      (.ok (), { st with
        cmetrics := { st.cmetrics with dlqMessages := st.cmetrics.dlqMessages + 1 },
        dlq := st.dlq ++
          [⟨m.key, m.value, dlqHeaders cfg now m.headers "Invalid message format"⟩],
        dlqIdx := st.dlqIdx + 1,
        committed := st.committed ++ [m.offset] }) := by
  rw [processStep, hp, sendToDLQ_ok cfg env now m "Invalid message format" st hdlq]

/-- `processStep` on an unparseable message whose first dead-letter
append fails but whose retried append (from the catch block) succeeds. -/
theorem processStep_invalid_retry_eq (cfg : Config) (env : Env) (now : Nat) (m : Message)
    (st : PipeState) (e2 : String)
    (hp : parseMessage env m = none) (hdlq : env.dlqFaults st.dlqIdx = some e2)
    (hdlq2 : env.dlqFaults (st.dlqIdx + 1) = none) :
    processStep cfg env now m st =
      (.ok (), { st with
        cmetrics := { st.cmetrics with
          messagesFailed := st.cmetrics.messagesFailed + 1,
          dlqMessages := st.cmetrics.dlqMessages + 2 },
        dlq := st.dlq ++ [⟨m.key, m.value, dlqHeaders cfg now m.headers e2⟩],
        dlqIdx := st.dlqIdx + 2,
        committed := st.committed ++ [m.offset] }) := by
  rw [processStep, hp, sendToDLQ_err cfg env now m "Invalid message format" st e2 hdlq]
  show handleFailure cfg env now m e2 { st with
      cmetrics := { st.cmetrics with dlqMessages := st.cmetrics.dlqMessages + 1 },
      dlqIdx := st.dlqIdx + 1 } = _
  rw [handleFailure_ok cfg env now m e2 _ (by simpa using hdlq2)]

/-- `processStep` on an unparseable message when both dead-letter
appends fail: the error propagates and nothing is committed. -/
theorem processStep_invalid_err_eq (cfg : Config) (env : Env) (now : Nat) (m : Message)
    (st : PipeState) (e2 e3 : String)
    (hp : parseMessage env m = none) (hdlq : env.dlqFaults st.dlqIdx = some e2)
    (hdlq2 : env.dlqFaults (st.dlqIdx + 1) = some e3) :
    processStep cfg env now m st =
      (.error e3, { st with
        cmetrics := { st.cmetrics with
          messagesFailed := st.cmetrics.messagesFailed + 1,
          dlqMessages := st.cmetrics.dlqMessages + 2 },
        dlqIdx := st.dlqIdx + 2 }) := by
  rw [processStep, hp, sendToDLQ_err cfg env now m "Invalid message format" st e2 hdlq]
  show handleFailure cfg env now m e2 { st with
      cmetrics := { st.cmetrics with dlqMessages := st.cmetrics.dlqMessages + 1 },
      dlqIdx := st.dlqIdx + 1 } = _
  rw [handleFailure_err cfg env now m e2 _ e3 (by simpa using hdlq2)]

/-- `processStep` on a valid message whose retry-wrapped write
succeeds: count it processed, stamp the time, commit the offset. -/
theorem processStep_valid_ok_eq (cfg : Config) (env : Env) (now : Nat) (m : Message)
    (st : PipeState) (ev : RawEvent) (r : WriteResult)
    (hp : parseMessage env m = some ev)
    (hres : (writeEventWithRetry cfg env now ev st.writer st.opIdx 1).result = .ok r) :
    processStep cfg env now m st =
      (.ok (),
        let st' := { st with
          writer := (writeEventWithRetry cfg env now ev st.writer st.opIdx 1).writer,
          opIdx := (writeEventWithRetry cfg env now ev st.writer st.opIdx 1).opIdx }
        let st'' :=
          if r.success then
            { st' with cmetrics := { st'.cmetrics with
                messagesProcessed := st'.cmetrics.messagesProcessed + 1,
                lastProcessedTimestamp := some now } }
          else st'
        { st'' with committed := st''.committed ++ [m.offset] }) := by
  rw [processStep, hp]
  simp only [hres]

/-- `processStep` on a valid message whose retry-wrapped write exhausts
its attempts, with a healthy dead-letter channel: dead-letter with the
final error's message as reason and commit the offset. -/
theorem processStep_valid_err_eq (cfg : Config) (env : Env) (now : Nat) (m : Message)
    (st : PipeState) (ev : RawEvent) (e2 : String)
    (hp : parseMessage env m = some ev)
    (hres : (writeEventWithRetry cfg env now ev st.writer st.opIdx 1).result = .error e2)
    (hdlq : env.dlqFaults st.dlqIdx = none) :
    processStep cfg env now m st =
      (.ok (), { st with
        writer := (writeEventWithRetry cfg env now ev st.writer st.opIdx 1).writer,
        opIdx := (writeEventWithRetry cfg env now ev st.writer st.opIdx 1).opIdx,
        cmetrics := { st.cmetrics with
          messagesFailed := st.cmetrics.messagesFailed + 1,
          dlqMessages := st.cmetrics.dlqMessages + 1 },
        dlq := st.dlq ++ [⟨m.key, m.value, dlqHeaders cfg now m.headers e2⟩],
        dlqIdx := st.dlqIdx + 1,
        committed := st.committed ++ [m.offset] }) := by
  rw [processStep, hp]
  simp only [hres]
  rw [handleFailure_ok cfg env now m e2 _ (by simpa using hdlq)]

/-- `processStep` on a valid message whose write exhausts its attempts
and whose dead-letter append also fails: the append error propagates
and nothing is committed. -/
theorem processStep_valid_err_err_eq (cfg : Config) (env : Env) (now : Nat) (m : Message)
    (st : PipeState) (ev : RawEvent) (e2 e3 : String)
    (hp : parseMessage env m = some ev)
    (hres : (writeEventWithRetry cfg env now ev st.writer st.opIdx 1).result = .error e2)
    (hdlq : env.dlqFaults st.dlqIdx = some e3) :
    processStep cfg env now m st =
      (.error e3, { st with
        writer := (writeEventWithRetry cfg env now ev st.writer st.opIdx 1).writer,
        opIdx := (writeEventWithRetry cfg env now ev st.writer st.opIdx 1).opIdx,
        cmetrics := { st.cmetrics with
          messagesFailed := st.cmetrics.messagesFailed + 1,
          dlqMessages := st.cmetrics.dlqMessages + 1 },
        dlqIdx := st.dlqIdx + 1 }) := by
  rw [processStep, hp]
  simp only [hres]
  rw [handleFailure_err cfg env now m e2 _ e3 (by simpa using hdlq)]


/-- One `processStep` only grows the store and the dead-letter topic,
and commits either nothing or exactly the message's own offset — and in
the latter case the message is durably handled in the resulting state. -/
theorem processStep_spec (cfg : Config) (env : Env) (now : Nat) (m : Message)
    (st : PipeState) :
    (∃ t, (processStep cfg env now m st).2.writer.store = st.writer.store ++ t) ∧
    (∃ t, (processStep cfg env now m st).2.dlq = st.dlq ++ t) ∧
    ((processStep cfg env now m st).2.committed = st.committed ∨
      ((processStep cfg env now m st).2.committed = st.committed ++ [m.offset] ∧
        handledBy env (processStep cfg env now m st).2 m = true)) := by
  cases hp : parseMessage env m with
  | none =>
      cases hdlq : env.dlqFaults st.dlqIdx with
      | none =>
          rw [processStep_invalid_eq cfg env now m st hp hdlq]
          refine ⟨⟨[], by simp⟩, ⟨_, rfl⟩, Or.inr ⟨rfl, ?_⟩⟩
          rw [handledBy_none hp]
          simp [List.any_append]
      | some e2 =>
          cases hdlq2 : env.dlqFaults (st.dlqIdx + 1) with
          | none =>
              rw [processStep_invalid_retry_eq cfg env now m st e2 hp hdlq hdlq2]
              refine ⟨⟨[], by simp⟩, ⟨_, rfl⟩, Or.inr ⟨rfl, ?_⟩⟩
              rw [handledBy_none hp]
              simp [List.any_append]
          | some e3 =>
              rw [processStep_invalid_err_eq cfg env now m st e2 e3 hp hdlq hdlq2]
              exact ⟨⟨[], by simp⟩, ⟨[], by simp⟩, Or.inl rfl⟩
  | some ev =>
      cases hres : (writeEventWithRetry cfg env now ev st.writer st.opIdx 1).result with
      | ok r =>
          rw [processStep_valid_ok_eq cfg env now m st ev r hp hres]
          obtain ⟨t, ht⟩ :=
            retry_store_mono cfg env now ev cfg.maxAttempts st.writer st.opIdx 1 (by omega)
          have hany :=
            retry_ok_stored cfg env now ev cfg.maxAttempts st.writer st.opIdx 1 (by omega)
              r hres
          cases hsucc : r.success with
          | true =>
              refine ⟨⟨t, by simp [hsucc, ht]⟩, ⟨[], by simp [hsucc]⟩,
                Or.inr ⟨by simp [hsucc], ?_⟩⟩
              rw [handledBy_some hp]
              simp [hsucc, hany]
          | false =>
              refine ⟨⟨t, by simp [hsucc, ht]⟩, ⟨[], by simp [hsucc]⟩,
                Or.inr ⟨by simp [hsucc], ?_⟩⟩
              rw [handledBy_some hp]
              simp [hsucc, hany]
      | error e2 =>
          obtain ⟨t, ht⟩ :=
            retry_store_mono cfg env now ev cfg.maxAttempts st.writer st.opIdx 1 (by omega)
          cases hdlq : env.dlqFaults st.dlqIdx with
          | none =>
              rw [processStep_valid_err_eq cfg env now m st ev e2 hp hres hdlq]
              refine ⟨⟨t, by simp [ht]⟩, ⟨_, rfl⟩, Or.inr ⟨rfl, ?_⟩⟩
              rw [handledBy_some hp]
              simp [List.any_append]
          | some e3 =>
              rw [processStep_valid_err_err_eq cfg env now m st ev e2 e3 hp hres hdlq]
              exact ⟨⟨t, by simp [ht]⟩, ⟨[], by simp⟩, Or.inl rfl⟩

/-- Unfolding the loop when the shutdown check passes and the step
succeeds. -/
theorem processLoop_cons_ok {cfg : Config} {env : Env} {now : Nat} {m : Message}
    {rest : List Message} {running : Nat → Bool} {st st1 : PipeState} {u : Unit}
    (hrun : running 0 = true)
    (hstep : processStep cfg env now m st = (.ok u, st1)) :
    processLoop cfg env now (m :: rest) running st =
      processLoop cfg env now rest (fun j => running (j + 1)) st1 := by
  rw [processLoop, if_pos hrun, hstep]

/-- Unfolding the loop when the shutdown check passes and the step
throws: the error propagates and the loop stops. -/
theorem processLoop_cons_error {cfg : Config} {env : Env} {now : Nat} {m : Message}
    {rest : List Message} {running : Nat → Bool} {st st1 : PipeState} {e2 : String}
    (hrun : running 0 = true)
    (hstep : processStep cfg env now m st = (.error e2, st1)) :
    processLoop cfg env now (m :: rest) running st = (.error e2, st1) := by
  rw [processLoop, if_pos hrun, hstep]

/-- Unfolding the loop when the shutdown check fails: the remainder of
the batch is skipped with no state change. -/
theorem processLoop_cons_stop {cfg : Config} {env : Env} {now : Nat} {m : Message}
    {rest : List Message} {running : Nat → Bool} {st : PipeState}
    (hrun : running 0 = false) :
    processLoop cfg env now (m :: rest) running st = (.ok (), st) := by
  rw [processLoop, if_neg (by simp [hrun])]

/-- The loop only grows the store and the dead-letter topic. -/
theorem processLoop_mono (cfg : Config) (env : Env) (now : Nat) :
    ∀ (msgs : List Message) (running : Nat → Bool) (st : PipeState),
      (∃ t, (processLoop cfg env now msgs running st).2.writer.store =
        st.writer.store ++ t) ∧
      (∃ t, (processLoop cfg env now msgs running st).2.dlq = st.dlq ++ t) := by
  intro msgs
  induction msgs with
  | nil =>
      intro running st
      exact ⟨⟨[], by simp [processLoop]⟩, ⟨[], by simp [processLoop]⟩⟩
  | cons m rest ih =>
      intro running st
      by_cases hrun : running 0 = true
      · rcases hstep : processStep cfg env now m st with ⟨res, st1⟩
        obtain ⟨hsm, hdm, _⟩ := processStep_spec cfg env now m st
        have hs1 : ∃ t, st1.writer.store = st.writer.store ++ t := by
          obtain ⟨t, ht⟩ := hsm
          rw [hstep] at ht
          exact ⟨t, ht⟩
        have hd1 : ∃ t, st1.dlq = st.dlq ++ t := by
          obtain ⟨t, ht⟩ := hdm
          rw [hstep] at ht
          exact ⟨t, ht⟩
        cases res with
        | ok u =>
            rw [processLoop_cons_ok hrun hstep]
            obtain ⟨⟨t2, ht2⟩, ⟨t2', ht2'⟩⟩ := ih (fun j => running (j + 1)) st1
            obtain ⟨t1, ht1⟩ := hs1
            obtain ⟨t1', ht1'⟩ := hd1
            exact ⟨⟨t1 ++ t2, by rw [ht2, ht1, List.append_assoc]⟩,
              ⟨t1' ++ t2', by rw [ht2', ht1', List.append_assoc]⟩⟩
        | error e2 =>
            rw [processLoop_cons_error hrun hstep]
            exact ⟨hs1, hd1⟩
      · rw [processLoop_cons_stop (by simpa using hrun)]
        exact ⟨⟨[], by simp⟩, ⟨[], by simp⟩⟩

/-- Every offset the loop commits belongs to a message of the batch that
is durably handled in the loop's final state. -/
theorem processLoop_commits (cfg : Config) (env : Env) (now : Nat) :
    ∀ (msgs : List Message) (running : Nat → Bool) (st : PipeState) (o : Nat),
      o ∈ (processLoop cfg env now msgs running st).2.committed →
      o ∈ st.committed ∨ ∃ m, m ∈ msgs ∧ m.offset = o ∧
        handledBy env (processLoop cfg env now msgs running st).2 m = true := by
  intro msgs
  induction msgs with
  | nil =>
      intro running st o ho
      left
      simpa [processLoop] using ho
  | cons m rest ih =>
      intro running st o ho
      by_cases hrun : running 0 = true
      · rcases hstep : processStep cfg env now m st with ⟨res, st1⟩
        obtain ⟨_, _, hcm⟩ := processStep_spec cfg env now m st
        rw [hstep] at hcm
        cases res with
        | ok u =>
            rw [processLoop_cons_ok hrun hstep] at ho ⊢
            rcases ih (fun j => running (j + 1)) st1 o ho with hin | ⟨m', hm', hoff, hhand⟩
            · rcases hcm with hceq | ⟨hceq, hhand1⟩
              · left
                rw [show st1.committed = st.committed from hceq] at hin
                exact hin
              · rw [show st1.committed = st.committed ++ [m.offset] from hceq] at hin
                rcases List.mem_append.mp hin with hin | hin
                · left; exact hin
                · right
                  refine ⟨m, List.mem_cons_self m rest, (List.mem_singleton.mp hin).symm, ?_⟩
                  have hmono := processLoop_mono cfg env now rest (fun j => running (j + 1)) st1
                  exact handledBy_mono env st1 _ m hmono.1 hmono.2 hhand1
            · right
              exact ⟨m', List.mem_cons_of_mem m hm', hoff, hhand⟩
        | error e2 =>
            rw [processLoop_cons_error hrun hstep] at ho ⊢
            rcases hcm with hceq | ⟨hceq, hhand1⟩
            · left
              rw [show st1.committed = st.committed from hceq] at ho
              exact ho
            · rw [show st1.committed = st.committed ++ [m.offset] from hceq] at ho
              rcases List.mem_append.mp ho with hin | hin
              · left; exact hin
              · right
                exact ⟨m, List.mem_cons_self m rest, (List.mem_singleton.mp hin).symm, hhand1⟩
      · rw [processLoop_cons_stop (by simpa using hrun)] at ho ⊢
        left
        simpa using ho

/-- The loop only looks at the shutdown sequence pointwise. -/
theorem processLoop_congr (cfg : Config) (env : Env) (now : Nat) :
    ∀ (msgs : List Message) (r1 r2 : Nat → Bool) (st : PipeState),
      (∀ j, r1 j = r2 j) →
      processLoop cfg env now msgs r1 st = processLoop cfg env now msgs r2 st := by
  intro msgs
  induction msgs with
  | nil => intro r1 r2 st hr; rfl
  | cons m rest ih =>
      intro r1 r2 st hr
      by_cases h0 : r1 0 = true
      · rcases hstep : processStep cfg env now m st with ⟨res, st1⟩
        cases res with
        | ok u =>
            rw [processLoop_cons_ok h0 hstep,
              processLoop_cons_ok (by rw [← hr 0]; exact h0) hstep]
            exact ih _ _ st1 (fun j => hr (j + 1))
        | error e2 =>
            rw [processLoop_cons_error h0 hstep,
              processLoop_cons_error (by rw [← hr 0]; exact h0) hstep]
      · have h0' : r1 0 = false := by simpa using h0
        rw [processLoop_cons_stop h0',
          processLoop_cons_stop (by rw [← hr 0]; exact h0')]

/-- A shutdown at iteration `i` makes the loop process exactly the first
`i` messages — the run is identical to a run on `msgs.take i` with no
shutdown. -/
theorem processLoop_take (cfg : Config) (env : Env) (now : Nat) :
    ∀ (msgs : List Message) (i : Nat) (st : PipeState),
      processLoop cfg env now msgs (fun j => decide (j < i)) st =
        processLoop cfg env now (msgs.take i) (fun _ => true) st := by
  intro msgs
  induction msgs with
  | nil =>
      intro i st
      rw [List.take_nil]
      rfl
  | cons m rest ih =>
      intro i st
      cases i with
      | zero =>
          rw [processLoop_cons_stop (by simp), List.take_zero]
          rfl
      | succ i =>
          rw [List.take_succ_cons]
          rcases hstep : processStep cfg env now m st with ⟨res, st1⟩
          cases res with
          | ok u =>
              rw [processLoop_cons_ok (by simp) hstep, processLoop_cons_ok rfl hstep]
              exact (processLoop_congr cfg env now rest _ _ st1
                (fun j => by rw [decide_eq_decide]; omega)).trans (ih i st1)
          | error e2 =>
              rw [processLoop_cons_error (by simp) hstep,
                processLoop_cons_error rfl hstep]


/-! ### C1 — offset-commit discipline -/

/-- The `eachBatch` handler (`processBatch`) in isolation never resolves
the offset of a record that was not durably handled — every offset it
resolves belongs to a message of the batch whose decoded event ends up
in the sink store or whose original bytes end up on the dead-letter
topic; and when the shutdown check reports shutdown at iteration `i`,
the handler's run is identical to a run on the first `i` messages only.
This discipline holds of the handler body alone; the kafkajs driver
configured in `start` breaks it (see
`runBatch_shutdown_commits_unhandled`). -/
theorem processBatch_offset_discipline (cfg : Config) (env : Env) (now : Nat) :
    (∀ (running : Nat → Bool) (msgs : List Message) (st : PipeState) (o : Nat),
      o ∈ (processBatch cfg env now running msgs st).2.committed →
      o ∈ st.committed ∨ ∃ m, m ∈ msgs ∧ m.offset = o ∧
        handledBy env (processBatch cfg env now running msgs st).2 m = true) ∧
    (∀ (i : Nat) (msgs : List Message) (st : PipeState),
      processLoop cfg env now msgs (fun j => decide (j < i)) st =
        processLoop cfg env now (msgs.take i) (fun _ => true) st) := by
  constructor
  · intro running msgs st o ho
    rcases hloop : processLoop cfg env now msgs running
        { st with cmetrics := { st.cmetrics with
          messagesReceived := st.cmetrics.messagesReceived + msgs.length } }
      with ⟨res, stf⟩
    have hcommit := processLoop_commits cfg env now msgs running
        { st with cmetrics := { st.cmetrics with
          messagesReceived := st.cmetrics.messagesReceived + msgs.length } } o
    rw [hloop] at hcommit
    cases res with
    | ok u =>
        have hb : processBatch cfg env now running msgs st =
            (.ok (), { stf with cmetrics := { stf.cmetrics with
              batchesProcessed := stf.cmetrics.batchesProcessed + 1 } }) := by
          simp only [processBatch]
          rw [hloop]
        rw [hb] at ho ⊢
        rcases hcommit ho with hin | ⟨m, hm, hoff, hh⟩
        · left; exact hin
        · right; exact ⟨m, hm, hoff, hh⟩
    | error e2 =>
        have hb : processBatch cfg env now running msgs st = (.error e2, stf) := by
          simp only [processBatch]
          rw [hloop]
        rw [hb] at ho ⊢
        rcases hcommit ho with hin | ⟨m, hm, hoff, hh⟩
        · left; exact hin
        · right; exact ⟨m, hm, hoff, hh⟩
  · intro i msgs st
    exact processLoop_take cfg env now msgs i st

/-- Concrete instance of the handler-level discipline: a one-message
batch whose message is invalid (and hence dead-lettered) resolves only
that message's offset, and a shutdown after one iteration of a
two-message batch runs exactly like the one-message prefix. -/
theorem processBatch_offset_discipline_witness :
    (8 ∈ freshPipe.committed ∨ ∃ m, m ∈ [msgInvalid] ∧ m.offset = 8 ∧
      handledBy envOk
        (processBatch cfgDef envOk 0 (fun _ => true) [msgInvalid] freshPipe).2 m = true) ∧
    processLoop cfgDef envOk 0 [msgValid, msgInvalid] (fun j => decide (j < 1)) freshPipe =
      processLoop cfgDef envOk 0 ([msgValid, msgInvalid].take 1) (fun _ => true) freshPipe := by
  constructor
  · apply (processBatch_offset_discipline cfgDef envOk 0).1 (fun _ => true) [msgInvalid]
      freshPipe 8
    have hstep := processStep_invalid_eq cfgDef envOk 0 msgInvalid
      { freshPipe with cmetrics := { freshPipe.cmetrics with
        messagesReceived := freshPipe.cmetrics.messagesReceived + [msgInvalid].length } }
      (by decide) rfl
    simp only [processBatch]
    rw [processLoop_cons_ok rfl hstep]
    decide
  · exact (processBatch_offset_discipline cfgDef envOk 0).2 1 [msgValid, msgInvalid]
      freshPipe

/-- C1: the offset-commit discipline the claim states fails on the code
at the driver level.  `KafkaEventConsumer.start` passes
`eachBatchAutoResolve: true` to `consumer.run`, so when the shutdown
check breaks out of the per-message loop and `processBatch` returns
normally, kafkajs auto-resolves the offset of the batch's last message.
On a two-message batch with shutdown reported before the first
iteration, no record is handled — the loop resolves nothing, and the
final state's store and dead-letter topic show neither record as
handled — yet the run ends without error with the last record's offset
committed, so the skipped records are not redelivered on the next
poll. -/
theorem runBatch_shutdown_commits_unhandled :
    (runBatch cfgDef envOk 0 (fun _ => false) [msgValid, msgInvalid] freshPipe).1 =
      .ok () ∧
    (runBatch cfgDef envOk 0 (fun _ => false) [msgValid, msgInvalid] freshPipe).2.committed =
      [msgInvalid.offset] ∧
    handledBy envOk
      (runBatch cfgDef envOk 0 (fun _ => false) [msgValid, msgInvalid] freshPipe).2
      msgInvalid = false ∧
    handledBy envOk
      (runBatch cfgDef envOk 0 (fun _ => false) [msgValid, msgInvalid] freshPipe).2
      msgValid = false := by
  exact ⟨rfl, rfl, rfl, rfl⟩

/-! ### C5 — invalid records -/

/-- C5 counterexample: the dead-letter reason the code attaches to an
invalid record is the string "Invalid message format", not the
"invalid format" the claim states. -/
theorem processBatch_invalid_reason_counterexample :
    ((processBatch cfgDef envOk 0 (fun _ => true) [msgInvalid] freshPipe).2.dlq.map
      (fun d => lookupHeader d.headers "x-error-reason")) =
      [some "Invalid message format"] ∧
    ("Invalid message format" : String) ≠ "invalid format" := by
  exact ⟨by decide, by decide⟩

/-- C5 (amended): for every message that fails decoding/validation
(missing or empty id, type, source or time), with a healthy dead-letter
channel, the pipeline routes the record to the dead-letter topic with
reason "Invalid message format", commits that record's offset, and
continues with the remaining records from an otherwise unchanged state —
in particular the sink writer and the store-operation cursor are
untouched, so the sink is never called for the invalid record. -/
theorem processBatch_invalid_record (cfg : Config) (env : Env) (now : Nat)
    (m : Message) (rest : List Message) (running : Nat → Bool) (st : PipeState)
    (hrun : running 0 = true)
    (hinvalid : parseMessage env m = none)
    (hdlq : env.dlqFaults st.dlqIdx = none) :
    processLoop cfg env now (m :: rest) running st =
      processLoop cfg env now rest (fun j => running (j + 1))
        { st with
          cmetrics := { st.cmetrics with dlqMessages := st.cmetrics.dlqMessages + 1 },
          dlq := st.dlq ++
            [⟨m.key, m.value, dlqHeaders cfg now m.headers "Invalid message format"⟩],
          dlqIdx := st.dlqIdx + 1,
          committed := st.committed ++ [m.offset] } :=
  processLoop_cons_ok hrun (processStep_invalid_eq cfg env now m st hinvalid hdlq)

/-- C5 witness: the amended statement evaluated on a concrete batch
whose first message decodes to an event with an empty id. -/
theorem processBatch_invalid_record_witness :
    processLoop cfgDef envOk 0 (msgInvalid :: [msgValid]) (fun _ => true) freshPipe =
      processLoop cfgDef envOk 0 [msgValid] (fun j => (fun _ => true) (j + 1))
        { freshPipe with
          cmetrics := { freshPipe.cmetrics with
            dlqMessages := freshPipe.cmetrics.dlqMessages + 1 },
          dlq := freshPipe.dlq ++
            [⟨msgInvalid.key, msgInvalid.value,
              dlqHeaders cfgDef 0 msgInvalid.headers "Invalid message format"⟩],
          dlqIdx := freshPipe.dlqIdx + 1,
          committed := freshPipe.committed ++ [msgInvalid.offset] } :=
  processBatch_invalid_record cfgDef envOk 0 msgInvalid [msgValid] (fun _ => true)
    freshPipe rfl (by decide) rfl


end AuraConsumer
